import Mathlib

/-!
# QMS Pro (src/js/qms-app.js): inspection records, status updates and reports

A shallow embedding of the `Storage`, `ModalManager.handleFormSubmission`,
`TableManager.updateStatus`, `TableManager.escapeHtml`, `ReportManager.convertToCSV` and
`ReportManager.createReportContent` code.

Conventions of the embedding.

* Numbers. A finite JavaScript number is the exact rational value of a binary64 number.
  Every `+` and `/` computes the exact result and rounds it to binary64 (to nearest,
  ties to even, overflow to an infinity, gradual underflow); `toFixed` works on the exact
  value. `NaN` and the two infinities are separate values. The sign of zero is not
  modelled.
* Environment. `Date.now()`, `new Date().getFullYear()`, the successive results of
  `Math.random().toString(36)`, the outcome of `localStorage.setItem` and the
  locale-dependent renderings (`toLocaleString`, number to string) are fields of `Env`.
* Persistence. `localStorage[DEFAULT_DATA_KEY]` is `World.storage`; `none` stands for an
  absent, empty or unparsable entry (all three make `readData` fall back to the sample
  data). `JSON.stringify` followed by `JSON.parse` is taken as the identity on records.
* DOM effects (toasts, re-rendering, KPI refresh, console output) are not modelled;
  `escapeHtml` is the HTML serialisation of a text node.
-/

namespace QMS

/-! ## JavaScript numbers -/

/-- A JavaScript number: a finite value (the exact rational value of a binary64 number),
`NaN`, or an infinity. -/
inductive JSNum where
  | fin (q : ℚ)
  | nan
  | posInf
  | negInf
deriving DecidableEq

/-- The comparison `x >= c` against a finite literal `c`; false for `NaN`. -/
def JSNum.ge (x : JSNum) (c : ℚ) : Bool :=
  match x with
  | .fin q => decide (c ≤ q)
  | .nan => false
  | .posInf => true
  | .negInf => false

/-- The integer nearest to `x`, the even one on a tie. -/
def roundHalfEven (x : ℚ) : ℤ :=
  if x - ⌊x⌋ < 1 / 2 then ⌊x⌋
  else if 1 / 2 < x - ⌊x⌋ then ⌊x⌋ + 1
  else if ⌊x⌋ % 2 = 0 then ⌊x⌋ else ⌊x⌋ + 1

/-- The binary exponent of the binade of a magnitude, never below that of the subnormal
range. -/
def binadeExp (a : ℚ) : ℤ := max (Int.log 2 a) (-1022)

/-- The spacing of the binary64 numbers in the binade of the magnitude `a`: 53 significant
bits. -/
def ulp (a : ℚ) : ℚ := (2 : ℚ) ^ (binadeExp a - 52)

/-- The magnitude `a` rounded to the nearest multiple of the spacing of its binade, ties
to the even multiple. -/
def roundMagnitude (a : ℚ) : ℚ := (roundHalfEven (a / ulp a) : ℚ) * ulp a

/-- The binary64 rounding of an exact result: the magnitude is rounded to nearest, ties
to even, and a rounded magnitude of `2^1024` or more is an infinity. -/
def roundToDouble (q : ℚ) : JSNum :=
  if (2 : ℚ) ^ 1024 ≤ roundMagnitude |q| then (if 0 < q then .posInf else .negInf)
  else .fin (if q < 0 then -roundMagnitude |q| else roundMagnitude |q|)

/-- The sum `a + b` of two numbers. -/
def jsAdd : JSNum → JSNum → JSNum
  | .fin a, .fin b => roundToDouble (a + b)
  | .nan, _ => .nan
  | _, .nan => .nan
  | .posInf, .negInf => .nan
  | .negInf, .posInf => .nan
  | .posInf, _ => .posInf
  | .negInf, _ => .negInf
  | _, .posInf => .posInf
  | _, .negInf => .negInf

/-- The quotient `a / b` of a number by a finite number: `0 / 0` is `NaN`, a non-zero
number over zero is an infinity, a finite quotient is rounded to binary64. -/
def jsDiv (a : JSNum) (b : ℚ) : JSNum :=
  match a with
  | .fin x =>
    if b = 0 then
      if x = 0 then .nan else if 0 < x then .posInf else .negInf
    else roundToDouble (x / b)
  | .nan => .nan
  | .posInf => if 0 ≤ b then .posInf else .negInf
  | .negInf => if 0 ≤ b then .negInf else .posInf

/-- The nearest integer to a non-negative `x`, the larger one on a tie
(`Number.prototype.toFixed`: "if there are two such n, pick the larger n"). -/
def roundHalfUp (x : ℚ) : ℤ := ⌊x + 1 / 2⌋

/-- The expression `+x.toFixed(2)`: `toFixed` rounds the exact magnitude to two decimals
(ties upward), keeps the sign, and leaves magnitudes of at least `10^21` and the
non-finite values as they are; unary plus reads the decimal string back as the nearest
binary64 number. -/
def toFixed2 : JSNum → JSNum
  | .fin q =>
    if (10 : ℚ) ^ 21 ≤ |q| then .fin q
    else if q < 0 then roundToDouble (-((roundHalfUp (-q * 100) : ℤ) : ℚ) / 100)
    else roundToDouble ((roundHalfUp (q * 100) : ℤ) / 100)
  | .nan => .nan
  | .posInf => .posInf
  | .negInf => .negInf

/-! ## Records and the environment -/

/-- A score object: its own enumerable properties, in insertion order, each value the
exact value of a binary64 number. -/
abbrev Scores := List (String × ℚ)

/-- The object built by `Storage.createInspectionData`. `notes` and `img` may be
`undefined`/`null` (`none`). -/
structure Record where
  id : String
  product : String
  vendor : String
  inspector : String
  batchId : String
  scores : Scores
  notes : Option String
  img : Option String
  average : JSNum
  predicted : String
  managerStatus : String
  timestamp : Int
deriving DecidableEq

/-- The argument object of `Storage.createInspectionData`; a property that is not
supplied is `none`. -/
structure InspectionInput where
  product : String
  vendor : String
  inspector : String
  batchId : Option String
  scores : Scores
  notes : Option String
  img : Option String
  timestamp : Option Int

/-- What the code reads from its surroundings. -/
structure Env where
  /-- The value of `Date.now()`. -/
  now : Int
  /-- The value of `new Date().getFullYear()`. -/
  year : Nat
  /-- The value of `Math.random().toString(36)` at the k-th call of `Math.random`. -/
  rand : Nat → String
  /-- Whether `localStorage.setItem` stores this payload (it throws when it does not). -/
  accepts : List Record → Bool
  /-- The rendering `new Date(t).toLocaleString()`. -/
  localeString : Int → String
  /-- The rendering of a number inside a template literal or `Array.prototype.join`. -/
  numToString : JSNum → String

/-- The mutable state: the persisted entry, the number of `Math.random` calls made so
far, and `ModalManager.currentImgData`. -/
structure World where
  storage : Option (List Record)
  draws : Nat
  currentImgData : Option String
deriving DecidableEq

/-- The method `String.prototype.slice(i, j)` for `0 ≤ i ≤ j`. -/
def slice (s : String) (i j : Nat) : String :=
  String.mk ((s.data.drop i).take (j - i))

/-- The truthiness of an optional string: `undefined` and `""` are falsy. -/
def truthy : Option String → Bool
  | none => false
  | some s => s != ""

/-! ## Storage -/

/-- The method `Storage.predictFromScore`. -/
def predictFromScore (score : JSNum) : String :=
  if score.ge 8 then "Accepted (Predicted)"
  else if score.ge 6 then "Recheck (Predicted)"
  else "Rejected (Predicted)"

/-- The method `Storage.calculateAverageScore`:
`values.reduce((a, b) => a + b, 0) / values.length`. -/
def calculateAverageScore (scores : Scores) : JSNum :=
  let values := scores.map Prod.snd
  jsDiv (values.foldl (fun a b => jsAdd a (.fin b)) (.fin 0)) (values.length : ℚ)

/-- The method `Storage.createInspectionData`. It draws one random string for the id and
a second one only when `batchId` is falsy. -/
def createInspectionData (env : Env) (w : World) (input : InspectionInput) :
    Record × World :=
  let ts : Int := match input.timestamp with
    | some t => if t = 0 then env.now else t
    | none => env.now
  let average := calculateAverageScore input.scores
  let predicted := predictFromScore average
  let id := "ins_" ++ slice (env.rand w.draws) 2 11
  let w1 := { w with draws := w.draws + 1 }
  let (batchId, w2) :=
    if truthy input.batchId then (input.batchId.getD "", w1)
    else ("BATCH-" ++ toString env.year ++ "-" ++ (slice (env.rand w1.draws) 2 6).toUpper,
          { w1 with draws := w1.draws + 1 })
  ({ id := id
     product := input.product
     vendor := input.vendor
     inspector := input.inspector
     batchId := batchId
     scores := input.scores
     notes := input.notes
     img := input.img
     average := toFixed2 average
     predicted := predicted
     managerStatus := "Pending"
     timestamp := ts }, w2)

/-- The method `Storage.saveData`: `true` with the entry replaced, or `false` with the
entry untouched when `setItem` throws. -/
def saveData (env : Env) (data : List Record) (w : World) : Bool × World :=
  if env.accepts data then (true, { w with storage := some data }) else (false, w)

/-- The method `Storage.generateSampleData`. -/
def generateSampleData (env : Env) (w : World) : List Record × World :=
  let (s1, w1) := createInspectionData env w
    { product := "Shirt - Classic Cotton"
      vendor := "Fresh Tailors"
      inspector := "John Smith"
      batchId := some "BATCH-2023-001"
      scores := [("fabric", 8.5), ("stitching", 8), ("fit", 7.5), ("color", 9),
                 ("packaging", 8), ("labels", 8)]
      notes := some "Good quality with minor fit issues. Fabric quality is excellent."
      img := none
      timestamp := some (env.now - 1000 * 60 * 60 * 24 * 2) }
  let (s2, w2) := createInspectionData env w1
    { product := "Shirt - Premium Linen"
      vendor := "Green Apparel"
      inspector := "Sarah Johnson"
      batchId := some "BATCH-2023-002"
      scores := [("fabric", 9), ("stitching", 8.5), ("fit", 8), ("color", 8.5),
                 ("packaging", 9), ("labels", 8)]
      notes := some "Excellent quality batch. Premium materials used throughout."
      img := none
      timestamp := some (env.now - 1000 * 60 * 60 * 24 * 1) }
  let samples := [s1, s2]
  (samples, (saveData env samples w2).2)

/-- The method `Storage.readData`: the parsed entry, or the freshly generated (and
saved) sample data when there is none. -/
def readData (env : Env) (w : World) : List Record × World :=
  match w.storage with
  | some data => (data, w)
  | none => generateSampleData env w

/-! ## ModalManager.handleFormSubmission -/

/-- The values read from the inspection form. A text control's `?.value` is `none` when
the element is missing. A range input holds a valid number or nothing, so a score field
is the number shown, `none` when the element is missing or its value is empty. -/
structure FormValues where
  product : Option String
  vendor : Option String
  inspector : Option String
  batchId : Option String
  notes : Option String
  fabric : Option ℚ
  stitching : Option ℚ
  fit : Option ℚ
  color : Option ℚ
  packaging : Option ℚ
  labels : Option ℚ

/-- The expression `parseFloat(el?.value || 0)` on a range input. -/
def parseScore (v : Option ℚ) : ℚ := v.getD 0

/-- The method `ModalManager.handleFormSubmission`: validate the required fields, build
the record, append it to what `readData` returns, save, and close the modal
(`closeAll` clears `currentImgData`). -/
def handleFormSubmission (env : Env) (form : FormValues) (w : World) : World :=
  if !truthy form.product || !truthy form.vendor || !truthy form.inspector then w
  else
    let scores : Scores :=
      [("fabric", parseScore form.fabric), ("stitching", parseScore form.stitching),
       ("fit", parseScore form.fit), ("color", parseScore form.color),
       ("packaging", parseScore form.packaging), ("labels", parseScore form.labels)]
    let (newItem, w1) := createInspectionData env w
      { product := form.product.getD ""
        vendor := form.vendor.getD ""
        inspector := form.inspector.getD ""
        batchId := form.batchId
        scores := scores
        notes := form.notes
        img := w.currentImgData
        timestamp := none }
    let (currentData, w2) := readData env w1
    let w3 := (saveData env (currentData ++ [newItem]) w2).2
    { w3 with currentImgData := none }

/-! ## TableManager.updateStatus -/

/-- The call `data.findIndex(item => item.id === id)`, with `none` for `-1`. -/
def findIndex (data : List Record) (id : String) : Option Nat :=
  data.findIdx? (fun item => item.id == id)

/-- The assignment `data[i].managerStatus = status`. -/
def setManagerStatus (data : List Record) (i : Nat) (status : String) : List Record :=
  match data[i]? with
  | some item => data.set i { item with managerStatus := status }
  | none => data

/-- The method `TableManager.updateStatus`. -/
def updateStatus (env : Env) (id status : String) (w : World) : World :=
  let (data, w1) := readData env w
  match findIndex data id with
  | some itemIndex => (saveData env (setManagerStatus data itemIndex status) w1).2
  | none => w1

/-! ## ReportManager.convertToCSV -/

/-- The header cells of the export. -/
def csvHeaders : List String :=
  ["Product", "Vendor", "Inspector", "Batch ID", "Average Score", "Status", "Timestamp"]

/-- The template literal that wraps a value in double quotes. -/
def quoted (s : String) : String := "\"" ++ s ++ "\""

/-- The cells built for one record inside the `forEach` of `convertToCSV`. -/
def csvCells (env : Env) (item : Record) : List String :=
  [quoted item.product, quoted item.vendor, quoted item.inspector, quoted item.batchId,
   env.numToString item.average, quoted item.managerStatus,
   quoted (env.localeString item.timestamp)]

/-- The method `ReportManager.convertToCSV`: start from the joined header, push one
joined row per record, join the rows with a newline. -/
def convertToCSV (env : Env) (data : List Record) : String :=
  let csvRows := data.foldl
    (fun rows item => rows ++ [",".intercalate (csvCells env item)])
    [",".intercalate csvHeaders]
  "\n".intercalate csvRows

/-! ## TableManager.escapeHtml -/

/-- The HTML serialisation of one character of a text node (what `innerHTML` returns for
`textContent`): the ampersand, the angle brackets and the no-break space become entities. -/
def escapeChar (c : Char) : List Char :=
  if c = '&' then "&amp;".data
  else if c = '<' then "&lt;".data
  else if c = '>' then "&gt;".data
  else if c = Char.ofNat 160 then "&nbsp;".data
  else [c]

/-- The method `TableManager.escapeHtml`: the empty string for a falsy argument, otherwise
the argument written into a text node and read back as markup. -/
def escapeHtml (str : Option String) : String :=
  if truthy str then String.mk ((str.getD "").data.flatMap escapeChar) else ""

/-! ## ReportManager.createReportContent -/

/-- The method `ReportManager.formatCriteriaName`: the display name of a known criterion,
the key itself otherwise (properties inherited from `Object.prototype` are not modelled). -/
def formatCriteriaName (key : String) : String :=
  if key = "fabric" then "Fabric Quality"
  else if key = "stitching" then "Stitching Quality"
  else if key = "fit" then "Fit & Size"
  else if key = "color" then "Color & Finish"
  else if key = "packaging" then "Packaging"
  else if key = "labels" then "Labels & Tags"
  else key

/-- The method `ReportManager.getRatingDescription`. -/
def getRatingDescription (score : JSNum) : String :=
  if score.ge 9 then "Excellent"
  else if score.ge 8 then "Very Good"
  else if score.ge 7 then "Good"
  else if score.ge 6 then "Average"
  else "Needs Improvement"

/-- The expression `inspection.notes || 'No additional notes provided.'`. -/
def notesOrFallback (notes : Option String) : String :=
  if truthy notes then notes.getD "" else "No additional notes provided."

/-- The template of `createReportContent` from its opening backtick to the end of the
header block. -/
def reportHead (inspection : Record) : String :=
  "\n" ++
  "            <!DOCTYPE html>\n" ++
  "            <html>\n" ++
  "            <head>\n" ++
  "                <title>Inspection Report - " ++ inspection.batchId ++ "</title>\n" ++
  "                <style>\n" ++
  "                    body \x7b font-family: Arial, sans-serif; margin: 40px; color: #333; \x7d\n" ++
  "                    .header \x7b text-align: center; margin-bottom: 40px; border-bottom: 2px solid #1976d2; padding-bottom: 20px; \x7d\n" ++
  "                    .logo \x7b font-size: 24px; font-weight: bold; color: #1976d2; margin-bottom: 10px; \x7d\n" ++
  "                    .summary \x7b display: grid; grid-template-columns: 1fr 1fr; gap: 20px; margin-bottom: 30px; \x7d\n" ++
  "                    .section \x7b margin-bottom: 30px; \x7d\n" ++
  "                    table \x7b width: 100%; border-collapse: collapse; margin: 20px 0; \x7d\n" ++
  "                    th, td \x7b padding: 12px; text-align: left; border-bottom: 1px solid #ddd; \x7d\n" ++
  "                    th \x7b background-color: #f5f5f5; font-weight: bold; \x7d\n" ++
  "                    .score \x7b font-weight: bold; color: #1976d2; \x7d\n" ++
  "                    .notes \x7b background: #f9f9f9; padding: 20px; border-radius: 8px; \x7d\n" ++
  "                </style>\n" ++
  "            </head>\n" ++
  "            <body>\n" ++
  "                <div class=\"header\">\n" ++
  "                    <div class=\"logo\">QMS Pro - Inspection Report</div>\n" ++
  "                    <h1>Detailed Quality Inspection Report</h1>\n" ++
  "                </div>\n" ++
  "                \n"

/-- The template of `createReportContent`: the summary block with the product and
inspection details; `time` is `new Date(inspection.timestamp).toLocaleString()`. -/
def reportSummaryBlock (env : Env) (inspection : Record) (time : String) : String :=
  "                <div class=\"summary\">\n" ++
  "                    <div>\n" ++
  "                        <h3>Product Information</h3>\n" ++
  "                        <p><strong>Product:</strong> " ++ inspection.product ++ "</p>\n" ++
  "                        <p><strong>Vendor:</strong> " ++ inspection.vendor ++ "</p>\n" ++
  "                        <p><strong>Batch ID:</strong> " ++ inspection.batchId ++ "</p>\n" ++
  "                    </div>\n" ++
  "                    <div>\n" ++
  "                        <h3>Inspection Details</h3>\n" ++
  "                        <p><strong>Inspector:</strong> " ++ inspection.inspector ++ "</p>\n" ++
  "                        <p><strong>Date:</strong> " ++ time ++ "</p>\n" ++
  "                        <p><strong>Overall Score:</strong> <span class=\"score\">" ++ env.numToString inspection.average ++ "/10</span></p>\n" ++
  "                    </div>\n" ++
  "                </div>\n" ++
  "                \n"

/-- The inner template of `createReportContent`, one table row per entry of
`Object.entries(inspection.scores)`. -/
def reportScoreRow (env : Env) (entry : String × ℚ) : String :=
  let key := entry.1
  let value := entry.2
  "\n" ++
  "                                <tr>\n" ++
  "                                    <td>" ++ formatCriteriaName key ++ "</td>\n" ++
  "                                    <td class=\"score\">" ++ env.numToString (.fin value) ++ "/10</td>\n" ++
  "                                    <td>" ++ getRatingDescription (.fin value) ++ "</td>\n" ++
  "                                </tr>\n" ++
  "                            "

/-- The template of `createReportContent`: the scores table, its rows joined by `join('')`. -/
def reportScores (env : Env) (inspection : Record) : String :=
  "                <div class=\"section\">\n" ++
  "                    <h3>Quality Scores Breakdown</h3>\n" ++
  "                    <table>\n" ++
  "                        <thead>\n" ++
  "                            <tr>\n" ++
  "                                <th>Criteria</th>\n" ++
  "                                <th>Score</th>\n" ++
  "                                <th>Rating</th>\n" ++
  "                            </tr>\n" ++
  "                        </thead>\n" ++
  "                        <tbody>\n" ++
  "                            " ++
  String.join (inspection.scores.map (reportScoreRow env)) ++
  "\n" ++
  "                        </tbody>\n" ++
  "                    </table>\n" ++
  "                </div>\n" ++
  "                \n"

/-- The template of `createReportContent`: the notes section. -/
def reportNotes (inspection : Record) : String :=
  "                <div class=\"section\">\n" ++
  "                    <h3>Inspection Notes</h3>\n" ++
  "                    <div class=\"notes\">\n" ++
  "                        <p>" ++ notesOrFallback inspection.notes ++ "</p>\n" ++
  "                    </div>\n" ++
  "                </div>\n" ++
  "                \n"

/-- The template of `createReportContent`: the closing summary section, down to the
closing backtick. -/
def reportFooter (env : Env) (inspection : Record) : String :=
  "                <div class=\"section\">\n" ++
  "                    <h3>Summary</h3>\n" ++
  "                    <p><strong>Predicted Status:</strong> " ++ inspection.predicted ++ "</p>\n" ++
  "                    <p><strong>Manager Decision:</strong> " ++ inspection.managerStatus ++ "</p>\n" ++
  "                    <p><strong>Report Generated:</strong> " ++ env.localeString env.now ++ "</p>\n" ++
  "                </div>\n" ++
  "            </body>\n" ++
  "            </html>\n" ++
  "        "

/-- The method `ReportManager.createReportContent`: the template literal, section by
section. -/
def createReportContent (env : Env) (inspection : Record) : String :=
  let time := env.localeString inspection.timestamp
  reportHead inspection ++ reportSummaryBlock env inspection time ++
  reportScores env inspection ++ reportNotes inspection ++ reportFooter env inspection

/-- The argument object that `handleFormSubmission` passes to `createInspectionData`. -/
def formInput (form : FormValues) (w : World) : InspectionInput :=
  { product := form.product.getD ""
    vendor := form.vendor.getD ""
    inspector := form.inspector.getD ""
    batchId := form.batchId
    scores :=
      [("fabric", parseScore form.fabric), ("stitching", parseScore form.stitching),
       ("fit", parseScore form.fit), ("color", parseScore form.color),
       ("packaging", parseScore form.packaging), ("labels", parseScore form.labels)]
    notes := form.notes
    img := w.currentImgData
    timestamp := none }

/-! ## Reference notions used to state the properties -/

/-- The arithmetic mean of the values of a score object. -/
def mean (scores : Scores) : ℚ := (scores.map Prod.snd).sum / scores.length

/-- The relation "r is x rounded to two decimal places": `r` is a whole number of
hundredths and `x` lies within half a hundredth of it, a tie going upward. -/
def IsRounded2 (x r : ℚ) : Prop :=
  (∃ n : ℤ, r = n / 100) ∧ r - 1 / 200 ≤ x ∧ x < r + 1 / 200

/-- A rational that is a binary64 value, up to the exponent range: an integer of at most
53 bits times a power of two, not finer than the subnormal spacing. -/
def Representable (r : ℚ) : Prop :=
  ∃ (M : ℤ) (K : ℤ), -1074 ≤ K ∧ |M| ≤ 2 ^ 53 ∧ r = M * (2 : ℚ) ^ K

/-- A form value that is empty or missing. -/
def EmptyOrMissing (v : Option String) : Prop := v = none ∨ v = some ""

/-- The text `part` occurs in `text` as it is. -/
def Embeds (text part : String) : Prop := ∃ pre post : String, text = pre ++ part ++ post

/-- The double-quote character. -/
def dquote : Char := Char.ofNat 34

/-- A string without a double-quote character. -/
def NoQuote (s : String) : Prop := dquote ∉ s.data

/-- A string that can stand as an unquoted CSV field: no double quote, comma or line
break. -/
def PlainText (s : String) : Prop := ∀ c ∈ s.data, c ≠ dquote ∧ c ≠ ',' ∧ c ≠ '\n'

/-- RFC 4180 writing of a quoted field: every embedded quote doubled, the whole wrapped
in quotes. -/
def rfcQuote (s : String) : String :=
  String.mk (dquote ::
    (s.data.flatMap (fun c => if c = dquote then [dquote, dquote] else [c])) ++ [dquote])

/-- Where an RFC 4180 reader stands inside a field: in unquoted text (also the start of
a field, when nothing has been read yet), inside a quoted field, or just after a quote
met inside a quoted field. -/
inductive CsvMode where
  | plain
  | quotedBody
  | quoteSeen
deriving DecidableEq

/-- The state of an RFC 4180 reader: the finished rows, the finished fields of the
current row, the characters of the current field, and the mode. -/
structure CsvState where
  rows : List (List String)
  row : List String
  buf : List Char
  mode : CsvMode
deriving DecidableEq

/-- One character of RFC 4180 reading (line breaks written as a bare line feed, as the
exporter writes them). A quote opens a quoted field only at the start of a field; inside
a quoted field a doubled quote stands for one quote and a single quote closes the field,
after which only a comma or a line break may follow. -/
def csvStep (st : CsvState) (c : Char) : Option CsvState :=
  match st.mode with
  | .plain =>
    if c = dquote then
      if st.buf = [] then some { st with mode := .quotedBody } else none
    else if c = ',' then
      some { st with row := st.row ++ [String.mk st.buf], buf := [] }
    else if c = '\n' then
      some { st with rows := st.rows ++ [st.row ++ [String.mk st.buf]], row := [], buf := [] }
    else some { st with buf := st.buf ++ [c] }
  | .quotedBody =>
    if c = dquote then some { st with mode := .quoteSeen }
    else some { st with buf := st.buf ++ [c] }
  | .quoteSeen =>
    if c = dquote then some { st with buf := st.buf ++ [dquote], mode := .quotedBody }
    else if c = ',' then
      some { st with row := st.row ++ [String.mk st.buf], buf := [], mode := .plain }
    else if c = '\n' then
      some { st with rows := st.rows ++ [st.row ++ [String.mk st.buf]], row := [], buf := [],
                     mode := .plain }
    else none

/-- The end of the input: an open quoted field is an error, a pending field closes its
row, and nothing is pending right after a line break. -/
def csvFinish (st : CsvState) : Option (List (List String)) :=
  match st.mode with
  | .quotedBody => none
  | .quoteSeen => some (st.rows ++ [st.row ++ [String.mk st.buf]])
  | .plain =>
    if st.row = [] ∧ st.buf = [] then some st.rows
    else some (st.rows ++ [st.row ++ [String.mk st.buf]])

/-- The reader run over a list of characters. -/
def csvRun (st : CsvState) : List Char → Option CsvState
  | [] => some st
  | c :: cs =>
    match csvStep st c with
    | some st2 => csvRun st2 cs
    | none => none

/-- RFC 4180 parsing of a text into rows of fields; `none` when the text is malformed. -/
def rfcParse (text : String) : Option (List (List String)) :=
  match csvRun { rows := [], row := [], buf := [], mode := .plain } text.data with
  | some st => csvFinish st
  | none => none

/-- The fields pending in a reader state, once the current field and row are closed. -/
def pendingRows (st : CsvState) : List (List String) :=
  st.rows ++ [st.row ++ [String.mk st.buf]]

/-- A reader state in which closing the current field and row is legal and adds a row. -/
def Closable (st : CsvState) : Prop :=
  st.mode = .quoteSeen ∨ (st.mode = .plain ∧ st.row ≠ [])

/-- The cleanliness the round trip needs of one record: no double quote in its string
fields or its rendered date, and a rendered average that can stand unquoted. -/
def CleanRecord (env : Env) (item : Record) : Prop :=
  NoQuote item.product ∧ NoQuote item.vendor ∧ NoQuote item.inspector ∧
  NoQuote item.batchId ∧ PlainText (env.numToString item.average) ∧
  NoQuote item.managerStatus ∧ NoQuote (env.localeString item.timestamp)

/-- The field values of one record, in the column order of the export. -/
def csvValues (env : Env) (item : Record) : List String :=
  [item.product, item.vendor, item.inspector, item.batchId, env.numToString item.average,
   item.managerStatus, env.localeString item.timestamp]

/-- An environment for concrete evaluations: fixed clock and random strings, every
write accepted, numbers and dates rendered by fixed stand-ins. -/
def demoEnv : Env :=
  { now := 1700000000000
    year := 2023
    rand := fun _ => "0.k3j9x2mq7ab"
    accepts := fun _ => true
    localeString := fun _ => "1/1/2024, 10:00:00 AM"
    numToString := fun _ => "8.17" }

/-- A state with nothing persisted. -/
def emptyWorld : World := { storage := none, draws := 0, currentImgData := none }

/-- An input with the given scores and otherwise fixed fields. -/
def inputWith (scores : Scores) : InspectionInput :=
  { product := "Shirt"
    vendor := "Fresh Tailors"
    inspector := "John Smith"
    batchId := some "BATCH-2023-001"
    scores := scores
    notes := none
    img := none
    timestamp := some 1690000000000 }

/-- The scores of the specification's worked example. -/
def exampleScores : Scores :=
  [("fabric", 8.5), ("stitching", 8), ("fit", 7.5), ("color", 9), ("packaging", 8),
   ("labels", 8)]

/-- Six in-range scores, 8, 8, 8, 8, 8 and 7.98 (as the binary64 number that `7.98`
denotes), whose average lies just below the 8 threshold. -/
def boundaryScores : Scores :=
  [("fabric", 8), ("stitching", 8), ("fit", 8), ("color", 8), ("packaging", 8),
   ("labels", 2246170314151035 / 2 ^ 48)]

/-- Six in-range scores, all 0 except 0.45 (as the binary64 number that `0.45` denotes),
whose exact mean is just above 0.075 while their binary64 average is just below. -/
def tieScores : Scores :=
  [("fabric", 0), ("stitching", 8106479329266893 / 2 ^ 54), ("fit", 0), ("color", 0),
   ("packaging", 0), ("labels", 0)]

/-- A stored record with the given id and manager status; its average is the binary64
number 8.17. -/
def demoRecord (id status : String) : Record :=
  { id := id
    product := "Shirt - Classic Cotton"
    vendor := "Fresh Tailors"
    inspector := "John Smith"
    batchId := "BATCH-2023-001"
    scores := exampleScores
    notes := some "Good quality"
    img := none
    average := .fin (4599301119452119 / 2 ^ 49)
    predicted := "Accepted (Predicted)"
    managerStatus := status
    timestamp := 1690000000000 }

/-- A stored record whose vendor contains a double quote. -/
def quoteRecord : Record :=
  { (demoRecord "ins_q" "Pending") with vendor := "Fresh \"Best\" Tailors" }

/-- A state whose persisted set holds three records, all pending. -/
def demoWorld : World :=
  { storage := some [demoRecord "ins_a" "Pending", demoRecord "ins_b" "Pending",
      demoRecord "ins_c" "Pending"]
    draws := 0
    currentImgData := none }

/-- A form whose vendor is missing. -/
def formNoVendor : FormValues :=
  { product := some "Shirt"
    vendor := none
    inspector := some "John Smith"
    batchId := some "BATCH-2023-009"
    notes := some ""
    fabric := some 8
    stitching := some 8
    fit := some 8
    color := some 8
    packaging := some 8
    labels := some 8 }

/-- A stored record whose product is a piece of markup. -/
def markupRecord : Record :=
  { (demoRecord "ins_m" "Pending") with product := "<script>alert(1)</script>" }

/-- A complete form. -/
def formComplete : FormValues :=
  { product := some "Shirt"
    vendor := some "Fresh Tailors"
    inspector := some "John Smith"
    batchId := some "BATCH-2023-009"
    notes := some ""
    fabric := some 8
    stitching := some 8
    fit := some 8
    color := some 8
    packaging := some 8
    labels := some 8 }

/-! ## Auxiliary lemmas: binary64 rounding -/

theorem roundHalfEven_abs_le (x : ℚ) : |(roundHalfEven x : ℚ) - x| ≤ 1 / 2 := by
  have h1 := Int.floor_le x
  have h2 := Int.lt_floor_add_one x
  unfold roundHalfEven
  split_ifs <;> push_cast <;> rw [abs_le] <;> constructor <;> linarith

theorem roundHalfEven_nearest (x : ℚ) (j : ℤ) :
    |(roundHalfEven x : ℚ) - x| ≤ |(j : ℚ) - x| := by
  by_contra h
  push_neg at h
  have h1 := roundHalfEven_abs_le x
  have h2 : |(j : ℚ) - roundHalfEven x| < 1 := by
    have h3 := abs_sub_le (j : ℚ) x (roundHalfEven x)
    have h4 : |x - (roundHalfEven x : ℚ)| = |(roundHalfEven x : ℚ) - x| := abs_sub_comm _ _
    linarith
  have h5 : |j - roundHalfEven x| < 1 := by exact_mod_cast h2
  have h6 : j - roundHalfEven x = 0 := Int.abs_lt_one_iff.mp h5
  have h7 : j = roundHalfEven x := by omega
  rw [h7] at h
  exact lt_irrefl _ h

theorem roundHalfEven_le (x : ℚ) (N : ℤ) (h : x ≤ N) : roundHalfEven x ≤ N := by
  by_contra hc
  push_neg at hc
  have h1 : (N : ℚ) + 1 ≤ roundHalfEven x := by exact_mod_cast hc
  have h2 := roundHalfEven_nearest x N
  rw [abs_of_nonneg (by linarith), abs_of_nonneg (by linarith)] at h2
  linarith

theorem le_roundHalfEven (x : ℚ) (N : ℤ) (h : (N : ℚ) ≤ x) : N ≤ roundHalfEven x := by
  by_contra hc
  push_neg at hc
  have h1 : (roundHalfEven x : ℚ) + 1 ≤ N := by exact_mod_cast hc
  have h2 := roundHalfEven_nearest x N
  rw [abs_of_nonpos (by linarith), abs_of_nonpos (by linarith)] at h2
  linarith

theorem roundHalfEven_of_close (x : ℚ) (J : ℤ) (h : |x - J| < 1 / 2) : roundHalfEven x = J := by
  have h1 := roundHalfEven_abs_le x
  have h2 : |(roundHalfEven x : ℚ) - J| < 1 := by
    have h3 := abs_sub_le (roundHalfEven x : ℚ) x J
    linarith
  have h5 : |roundHalfEven x - J| < 1 := by exact_mod_cast h2
  have h6 : roundHalfEven x - J = 0 := Int.abs_lt_one_iff.mp h5
  omega

theorem ulp_pos (a : ℚ) : 0 < ulp a := zpow_pos (by norm_num) _

theorem roundMagnitude_sub (x : ℚ) (j : ℤ) :
    |roundMagnitude x - x| ≤ |(j : ℚ) * ulp x - x| := by
  have hu := ulp_pos x
  have h1 := roundHalfEven_nearest (x / ulp x) j
  have e1 : roundMagnitude x - x = ((roundHalfEven (x / ulp x) : ℚ) - x / ulp x) * ulp x := by
    unfold roundMagnitude
    field_simp
  have e2 : (j : ℚ) * ulp x - x = ((j : ℚ) - x / ulp x) * ulp x := by
    field_simp
  rw [e1, e2, abs_mul, abs_mul, abs_of_pos hu]
  exact mul_le_mul_of_nonneg_right h1 hu.le

theorem roundMagnitude_zero : roundMagnitude 0 = 0 := by
  have h : roundHalfEven 0 = 0 := roundHalfEven_of_close 0 0 (by norm_num)
  simp [roundMagnitude, h]

theorem roundMagnitude_nonneg (x : ℚ) (hx : 0 ≤ x) : 0 ≤ roundMagnitude x := by
  have hu := ulp_pos x
  have h : (0 : ℤ) ≤ roundHalfEven (x / ulp x) :=
    le_roundHalfEven _ 0 (by simpa using div_nonneg hx hu.le)
  have h2 : (0 : ℚ) ≤ roundHalfEven (x / ulp x) := by exact_mod_cast h
  exact mul_nonneg h2 hu.le

theorem roundMagnitude_nearest (x : ℚ) (hx : 0 ≤ x) (r : ℚ) (hr : Representable r) :
    |roundMagnitude x - x| ≤ |r - x| := by
  obtain ⟨M, K, hK, hM, rfl⟩ := hr
  have h2 : (2 : ℚ) ≠ 0 := by norm_num
  by_cases hKe : binadeExp x - 52 ≤ K
  · obtain ⟨n, hn⟩ := Int.le.dest hKe
    have e1 : (M : ℚ) * (2 : ℚ) ^ K = ((M * 2 ^ n : ℤ) : ℚ) * ulp x := by
      unfold ulp
      rw [← hn, zpow_add₀ h2, zpow_natCast]
      push_cast
      ring
    rw [e1]
    exact roundMagnitude_sub x _
  · push_neg at hKe
    rcases hx.eq_or_lt with h0 | hpos
    · rw [← h0, roundMagnitude_zero]
      simp
    · have he : binadeExp x = Int.log 2 x := by
        unfold binadeExp at hKe ⊢
        rcases le_total (Int.log 2 x) (-1022) with hl | hl
        · rw [max_eq_right hl] at hKe
          omega
        · exact max_eq_left hl
      have hlow : (2 : ℚ) ^ binadeExp x ≤ x := by
        rw [he]
        exact_mod_cast Int.zpow_log_le_self (b := 2) (by norm_num) hpos
      have hMq : |(M : ℚ)| ≤ 2 ^ 53 := by exact_mod_cast hM
      have hpow : (2 : ℚ) ^ K ≤ (2 : ℚ) ^ (binadeExp x - 53) :=
        zpow_le_zpow_right₀ (by norm_num) (by omega)
      have hKpos : (0 : ℚ) < (2 : ℚ) ^ K := zpow_pos (by norm_num) _
      have hsplit : (2 : ℚ) ^ binadeExp x = 2 ^ 53 * (2 : ℚ) ^ (binadeExp x - 53) := by
        have : binadeExp x = 53 + (binadeExp x - 53) := by ring
        conv_lhs => rw [this, zpow_add₀ h2]
        norm_num
      have hr1 : (M : ℚ) * (2 : ℚ) ^ K ≤ (2 : ℚ) ^ binadeExp x := by
        have hM1 : (M : ℚ) ≤ 2 ^ 53 := le_trans (le_abs_self _) hMq
        calc (M : ℚ) * (2 : ℚ) ^ K ≤ 2 ^ 53 * (2 : ℚ) ^ K :=
              mul_le_mul_of_nonneg_right hM1 hKpos.le
          _ ≤ 2 ^ 53 * (2 : ℚ) ^ (binadeExp x - 53) :=
              mul_le_mul_of_nonneg_left hpow (by norm_num)
          _ = (2 : ℚ) ^ binadeExp x := hsplit.symm
      have hj : (((2 ^ 52 : ℤ) : ℚ)) * ulp x = (2 : ℚ) ^ binadeExp x := by
        unfold ulp
        have : binadeExp x = 52 + (binadeExp x - 52) := by ring
        conv_rhs => rw [this, zpow_add₀ h2]
        norm_num
      have h3 := roundMagnitude_sub x (2 ^ 52)
      rw [hj] at h3
      rw [abs_of_nonpos (by linarith : (2 : ℚ) ^ binadeExp x - x ≤ 0)] at h3
      rw [abs_of_nonpos (by linarith : (M : ℚ) * (2 : ℚ) ^ K - x ≤ 0)]
      linarith


theorem roundToDouble_of_nonneg (x : ℚ) (hx : 0 ≤ x) (h : roundMagnitude x < 2 ^ 1024) :
    roundToDouble x = .fin (roundMagnitude x) := by
  unfold roundToDouble
  rw [abs_of_nonneg hx, if_neg (not_le.mpr h), if_neg (not_lt.mpr hx)]

theorem roundMagnitude_le (x c : ℚ) (hx : 0 ≤ x) (hxc : x ≤ c) (hc : Representable c) :
    roundMagnitude x ≤ c := by
  by_contra h
  push_neg at h
  have h1 := roundMagnitude_nearest x hx c hc
  rw [abs_of_nonneg (by linarith), abs_of_nonneg (by linarith)] at h1
  linarith

theorem le_roundMagnitude (x c : ℚ) (hx : 0 ≤ x) (hcx : c ≤ x) (hc : Representable c) :
    c ≤ roundMagnitude x := by
  by_contra h
  push_neg at h
  have h1 := roundMagnitude_nearest x hx c hc
  rw [abs_of_nonpos (by linarith), abs_of_nonpos (by linarith)] at h1
  linarith

theorem representable_int (n : ℤ) (h : |n| ≤ 2 ^ 53) : Representable n :=
  ⟨n, 0, by norm_num, h, by simp⟩

theorem representable_dyadic (M : ℤ) (p : ℕ) (hp : p ≤ 1074) (h : |M| ≤ 2 ^ 53) :
    Representable ((M : ℚ) / 2 ^ p) :=
  ⟨M, -(p : ℤ), by omega, h, by rw [zpow_neg, zpow_natCast]; rfl⟩

theorem two_pow_1024_gt : (2 : ℚ) ^ 53 < 2 ^ 1024 := by norm_num

/-- Rounding keeps a value between two representable bounds. -/
theorem roundToDouble_between (x lo hi : ℚ) (h0 : 0 ≤ lo) (h1 : lo ≤ x) (h2 : x ≤ hi)
    (hlo : Representable lo) (hhi : Representable hi) (hfin : hi < 2 ^ 1024) :
    ∃ y, roundToDouble x = .fin y ∧ lo ≤ y ∧ y ≤ hi := by
  have hx : 0 ≤ x := le_trans h0 h1
  have hle := roundMagnitude_le x hi hx h2 hhi
  have hge := le_roundMagnitude x lo hx h1 hlo
  exact ⟨roundMagnitude x, roundToDouble_of_nonneg x hx (lt_of_le_of_lt hle hfin), hge, hle⟩

theorem roundToDouble_representable (c : ℚ) (h0 : 0 ≤ c) (hc : Representable c)
    (hfin : c < 2 ^ 1024) : roundToDouble c = .fin c := by
  obtain ⟨y, hy, h1, h2⟩ := roundToDouble_between c c c h0 le_rfl le_rfl hc hc hfin
  rw [hy, le_antisymm h2 h1]

/-- The rounding error of a value whose `p`-fold doubling still fits 53 bits. -/
theorem roundMagnitude_error (x : ℚ) (hx : 0 ≤ x) (p : ℕ) (hp : p ≤ 1074)
    (hfit : x * 2 ^ p ≤ 2 ^ 53) : |roundMagnitude x - x| ≤ 1 / 2 ^ (p + 1) := by
  have hpos : (0 : ℚ) < 2 ^ p := by positivity
  have hM0 : (0 : ℤ) ≤ roundHalfEven (x * 2 ^ p) :=
    le_roundHalfEven _ 0 (by simpa using mul_nonneg hx hpos.le)
  have hM1 : roundHalfEven (x * 2 ^ p) ≤ 2 ^ 53 :=
    roundHalfEven_le _ (2 ^ 53) (by exact_mod_cast hfit)
  have hrep : Representable ((roundHalfEven (x * 2 ^ p) : ℚ) / 2 ^ p) :=
    representable_dyadic _ p hp (by rw [abs_of_nonneg hM0]; exact hM1)
  have h1 := roundMagnitude_nearest x hx _ hrep
  have h2 := roundHalfEven_abs_le (x * 2 ^ p)
  have e1 : (roundHalfEven (x * 2 ^ p) : ℚ) / 2 ^ p - x =
      ((roundHalfEven (x * 2 ^ p) : ℚ) - x * 2 ^ p) / 2 ^ p := by
    field_simp
    ring
  rw [e1, abs_div, abs_of_pos hpos] at h1
  have h3 : |(roundHalfEven (x * 2 ^ p) : ℚ) - x * 2 ^ p| / 2 ^ p ≤ 1 / 2 / 2 ^ p :=
    div_le_div_of_nonneg_right h2 hpos.le
  have e2 : (1 : ℚ) / 2 / 2 ^ p = 1 / 2 ^ (p + 1) := by
    rw [pow_succ]
    field_simp
    ring
  linarith

/-- The evaluation of a rounding inside one binade: when `x * 2 ^ p` has exactly 53 bits
and lies within half a unit of the integer `J`, `x` rounds to `J / 2 ^ p`. -/
theorem roundToDouble_eval (x : ℚ) (p : ℕ) (J : ℤ) (hp : p ≤ 1074)
    (hlo : 2 ^ 52 ≤ x * 2 ^ p) (hhi : x * 2 ^ p < 2 ^ 53) (hJ : |x * 2 ^ p - J| < 1 / 2) :
    roundToDouble x = .fin ((J : ℚ) / 2 ^ p) := by
  have hpos : (0 : ℚ) < 2 ^ p := by positivity
  have h2 : (2 : ℚ) ≠ 0 := by norm_num
  have hx : 0 < x := by
    by_contra hc
    push_neg at hc
    have : x * 2 ^ p ≤ 0 := mul_nonpos_of_nonpos_of_nonneg hc hpos.le
    have : (0 : ℚ) < 2 ^ 52 := by positivity
    linarith
  have hlog : Int.log 2 x = 52 - (p : ℤ) := by
    have hA : (52 - (p : ℤ)) ≤ Int.log 2 x := by
      rw [← Int.zpow_le_iff_le_log (by norm_num) hx]
      rw [zpow_sub₀ (by norm_num), zpow_natCast]
      push_cast
      rw [div_le_iff₀ hpos]
      exact_mod_cast hlo
    have hB : Int.log 2 x < 53 - (p : ℤ) := by
      rw [← Int.lt_zpow_iff_log_lt (by norm_num) hx]
      rw [zpow_sub₀ (by norm_num), zpow_natCast]
      push_cast
      rw [lt_div_iff₀ hpos]
      exact_mod_cast hhi
    omega
  have hexp : binadeExp x = 52 - (p : ℤ) := by
    unfold binadeExp
    rw [hlog]
    exact max_eq_left (by omega)
  have hulp : ulp x = 1 / 2 ^ p := by
    unfold ulp
    rw [hexp]
    have : (52 - (p : ℤ) - 52) = -(p : ℤ) := by ring
    rw [this, zpow_neg, zpow_natCast]
    simp
  have hdiv : x / ulp x = x * 2 ^ p := by
    rw [hulp]
    field_simp
  have hmag : roundMagnitude x = (J : ℚ) / 2 ^ p := by
    unfold roundMagnitude
    rw [hdiv, roundHalfEven_of_close _ J hJ, hulp]
    ring
  have hJle : (J : ℚ) ≤ 2 ^ 53 := by
    have := abs_lt.mp hJ
    have h5 : (J : ℚ) < 2 ^ 53 + 1 := by linarith [this.1]
    have h6 : J < 2 ^ 53 + 1 := by exact_mod_cast h5
    have h7 : J ≤ 2 ^ 53 := by omega
    exact_mod_cast h7
  have hfin : roundMagnitude x < 2 ^ 1024 := by
    rw [hmag]
    have h8 : (J : ℚ) / 2 ^ p ≤ J := by
      by_cases hJ0 : (0 : ℚ) ≤ J
      · exact div_le_self hJ0 (one_le_pow₀ (by norm_num))
      · push_neg at hJ0
        have := abs_lt.mp hJ
        linarith [this.2]
    linarith [two_pow_1024_gt]
  rw [roundToDouble_of_nonneg x hx.le hfin, hmag]

/-! ## Auxiliary lemmas: sums and means -/

theorem isRounded2_roundHalfUp (m : ℚ) :
    IsRounded2 m ((roundHalfUp (m * 100) : ℤ) / 100) := by
  refine ⟨⟨roundHalfUp (m * 100), rfl⟩, ?_, ?_⟩
  · have := Int.floor_le (m * 100 + 1 / 2)
    unfold roundHalfUp
    linarith
  · have := Int.lt_floor_add_one (m * 100 + 1 / 2)
    unfold roundHalfUp
    linarith

/-! ## Storage.predictFromScore -/

/-- C1: for every finite average `a`, `predictFromScore a` is "Accepted (Predicted)"
exactly when `a ≥ 8`, "Recheck (Predicted)" exactly when `6 ≤ a < 8` and
"Rejected (Predicted)" exactly when `a < 6`; the four boundary samples 8.0, 7.999, 6.0
and 5.999 fall as the specification lists them. -/
theorem predictFromScore_bands :
    (∀ a : ℚ,
      (predictFromScore (.fin a) = "Accepted (Predicted)" ↔ 8 ≤ a) ∧
      (predictFromScore (.fin a) = "Recheck (Predicted)" ↔ 6 ≤ a ∧ a < 8) ∧
      (predictFromScore (.fin a) = "Rejected (Predicted)" ↔ a < 6)) ∧
    predictFromScore (.fin 8) = "Accepted (Predicted)" ∧
    predictFromScore (.fin (7999 / 1000)) = "Recheck (Predicted)" ∧
    predictFromScore (.fin 6) = "Recheck (Predicted)" ∧
    predictFromScore (.fin (5999 / 1000)) = "Rejected (Predicted)" := by
  have key : ∀ a : ℚ,
      (predictFromScore (.fin a) = "Accepted (Predicted)" ↔ 8 ≤ a) ∧
      (predictFromScore (.fin a) = "Recheck (Predicted)" ↔ 6 ≤ a ∧ a < 8) ∧
      (predictFromScore (.fin a) = "Rejected (Predicted)" ↔ a < 6) := by
    intro a
    have hAR : ("Accepted (Predicted)" : String) ≠ "Recheck (Predicted)" := by decide
    have hAJ : ("Accepted (Predicted)" : String) ≠ "Rejected (Predicted)" := by decide
    have hRJ : ("Recheck (Predicted)" : String) ≠ "Rejected (Predicted)" := by decide
    by_cases h8 : 8 ≤ a
    · have h6 : (6 : ℚ) ≤ a := by linarith
      simp [predictFromScore, JSNum.ge, h8, h6, hAR, hAJ]
    · by_cases h6 : 6 ≤ a
      · simp [predictFromScore, JSNum.ge, h8, h6, hAR.symm, hRJ]
        linarith
      · simp [predictFromScore, JSNum.ge, h8, h6, hAJ.symm, hRJ.symm]
        linarith
  refine ⟨key, ?_, ?_, ?_, ?_⟩
  · exact (key 8).1.mpr (by norm_num)
  · exact (key _).2.1.mpr (by norm_num)
  · exact (key 6).2.1.mpr (by norm_num)
  · exact (key _).2.2.mpr (by norm_num)

/-! ## Storage.createInspectionData and Storage.calculateAverageScore -/

theorem predictFromScore_fin (a : ℚ) :
    predictFromScore (.fin a) =
      if 8 ≤ a then "Accepted (Predicted)"
      else if 6 ≤ a then "Recheck (Predicted)" else "Rejected (Predicted)" := by
  simp [predictFromScore, JSNum.ge]

theorem createInspectionData_average_eq (env : Env) (w : World) (input : InspectionInput) :
    (createInspectionData env w input).1.average =
      toFixed2 (calculateAverageScore input.scores) := by
  unfold createInspectionData
  split <;> rfl

theorem createInspectionData_predicted_eq (env : Env) (w : World) (input : InspectionInput) :
    (createInspectionData env w input).1.predicted =
      predictFromScore (calculateAverageScore input.scores) := by
  unfold createInspectionData
  split <;> rfl

theorem mean_exampleScores : mean exampleScores = 49 / 6 := by
  norm_num [mean, exampleScores]

theorem roundToDouble_fin_of_le (x hi : ℚ) (hx : 0 ≤ x) (h2 : x ≤ hi)
    (hhi : Representable hi) (hfin : hi < 2 ^ 1024) :
    roundToDouble x = .fin (roundMagnitude x) ∧ 0 ≤ roundMagnitude x ∧
      roundMagnitude x ≤ hi := by
  have hle := roundMagnitude_le x hi hx h2 hhi
  exact ⟨roundToDouble_of_nonneg x hx (lt_of_le_of_lt hle hfin), roundMagnitude_nonneg x hx,
    hle⟩

theorem representable_ten_mul (k : ℕ) (h : 10 * (k : ℚ) ≤ 2 ^ 53) :
    Representable (10 * (k : ℚ)) := by
  have h1 : ((10 * k : ℕ) : ℚ) ≤ 2 ^ 53 := by push_cast; exact h
  have h2 : (10 * k : ℕ) ≤ 2 ^ 53 := by exact_mod_cast h1
  have h3 : Representable (((10 * k : ℕ) : ℤ) : ℚ) :=
    representable_int _ (by
      rw [abs_of_nonneg (by positivity)]
      exact_mod_cast h2)
  have e : ((((10 * k : ℕ) : ℤ)) : ℚ) = 10 * (k : ℚ) := by push_cast; ring
  rw [e] at h3
  exact h3

theorem representable_ten : Representable 10 := by
  have := representable_ten_mul 1 (by norm_num)
  simpa using this

theorem representable_zero : Representable 0 := by
  have := representable_int 0 (by norm_num)
  simpa using this

/-- The running binary64 sum of values in `[0,10]` stays finite, non-negative and at most
ten times the number of values added, as long as that bound is a 53-bit integer. -/
theorem foldl_jsAdd_bounds (l : List ℚ) (h : ∀ v ∈ l, 0 ≤ v ∧ v ≤ 10) (s0 : ℚ) (k0 : ℕ)
    (hs0 : 0 ≤ s0) (hs1 : s0 ≤ 10 * (k0 : ℚ))
    (hk : 10 * ((k0 + l.length : ℕ) : ℚ) ≤ 2 ^ 53) :
    ∃ s, l.foldl (fun a b => jsAdd a (.fin b)) (.fin s0) = .fin s ∧ 0 ≤ s ∧
      s ≤ 10 * ((k0 + l.length : ℕ) : ℚ) := by
  induction l generalizing s0 k0 with
  | nil => exact ⟨s0, rfl, hs0, by simpa using hs1⟩
  | cons v vs ih =>
    obtain ⟨hv0, hv1⟩ := h v (by simp)
    have hvs : ∀ u ∈ vs, 0 ≤ u ∧ u ≤ 10 := fun u hu => h u (by simp [hu])
    have hlen : (k0 + (v :: vs).length : ℕ) = (k0 + 1) + vs.length := by
      simp only [List.length_cons]; omega
    rw [hlen] at hk ⊢
    have hk1 : 10 * ((k0 + 1 : ℕ) : ℚ) ≤ 2 ^ 53 := by
      have : ((k0 + 1 : ℕ) : ℚ) ≤ ((k0 + 1 + vs.length : ℕ) : ℚ) := by
        exact_mod_cast Nat.le_add_right _ _
      linarith
    have hsum : s0 + v ≤ 10 * ((k0 + 1 : ℕ) : ℚ) := by push_cast; linarith
    obtain ⟨e1, e2, e3⟩ := roundToDouble_fin_of_le (s0 + v) _ (by linarith) hsum
      (representable_ten_mul _ hk1) (lt_of_le_of_lt hk1 two_pow_1024_gt)
    have hstep : (v :: vs).foldl (fun a b => jsAdd a (.fin b)) (.fin s0) =
        vs.foldl (fun a b => jsAdd a (.fin b)) (.fin (roundMagnitude (s0 + v))) := by
      simp only [List.foldl_cons, jsAdd, e1]
    rw [hstep]
    exact ih hvs (roundMagnitude (s0 + v)) (k0 + 1) e2 e3 hk

/-- The running binary64 sum of at most six values in `[0,10]` is within `2^-48` per
addition of the exact sum. -/
theorem foldl_jsAdd_error (l : List ℚ) (h : ∀ v ∈ l, 0 ≤ v ∧ v ≤ 10) (s0 t0 : ℚ) (k0 : ℕ)
    (hs0 : 0 ≤ s0) (hs1 : s0 ≤ 10 * (k0 : ℚ)) (herr : |s0 - t0| ≤ (k0 : ℚ) / 2 ^ 48)
    (hk : k0 + l.length ≤ 6) :
    ∃ s, l.foldl (fun a b => jsAdd a (.fin b)) (.fin s0) = .fin s ∧ 0 ≤ s ∧
      s ≤ 10 * ((k0 + l.length : ℕ) : ℚ) ∧
      |s - (t0 + l.sum)| ≤ ((k0 + l.length : ℕ) : ℚ) / 2 ^ 48 := by
  induction l generalizing s0 t0 k0 with
  | nil => exact ⟨s0, rfl, hs0, by simpa using hs1, by simpa using herr⟩
  | cons v vs ih =>
    obtain ⟨hv0, hv1⟩ := h v (by simp)
    have hvs : ∀ u ∈ vs, 0 ≤ u ∧ u ≤ 10 := fun u hu => h u (by simp [hu])
    have hlen : (k0 + (v :: vs).length : ℕ) = (k0 + 1) + vs.length := by
      simp only [List.length_cons]; omega
    rw [hlen] at hk ⊢
    have hk0 : (k0 : ℚ) + 1 ≤ 6 := by
      have : k0 + 1 ≤ 6 := by omega
      exact_mod_cast this
    have hk1 : 10 * ((k0 + 1 : ℕ) : ℚ) ≤ 2 ^ 53 := by push_cast; norm_num; linarith
    have hsum : s0 + v ≤ 10 * ((k0 + 1 : ℕ) : ℚ) := by push_cast; linarith
    obtain ⟨e1, e2, e3⟩ := roundToDouble_fin_of_le (s0 + v) _ (by linarith) hsum
      (representable_ten_mul _ hk1) (lt_of_le_of_lt hk1 two_pow_1024_gt)
    have e4 := roundMagnitude_error (s0 + v) (by linarith) 47 (by norm_num) (by
      have : s0 + v ≤ 64 := by push_cast at hsum; linarith
      calc (s0 + v) * 2 ^ 47 ≤ 64 * 2 ^ 47 := by
            exact mul_le_mul_of_nonneg_right this (by positivity)
        _ = 2 ^ 53 := by norm_num)
    have hstep : (v :: vs).foldl (fun a b => jsAdd a (.fin b)) (.fin s0) =
        vs.foldl (fun a b => jsAdd a (.fin b)) (.fin (roundMagnitude (s0 + v))) := by
      simp only [List.foldl_cons, jsAdd, e1]
    have herr1 : |roundMagnitude (s0 + v) - (t0 + v)| ≤ ((k0 + 1 : ℕ) : ℚ) / 2 ^ 48 := by
      have h5 : roundMagnitude (s0 + v) - (t0 + v) =
          (roundMagnitude (s0 + v) - (s0 + v)) + (s0 - t0) := by ring
      rw [h5]
      have h6 := abs_add (roundMagnitude (s0 + v) - (s0 + v)) (s0 - t0)
      have h7 : ((k0 + 1 : ℕ) : ℚ) / 2 ^ 48 = (k0 : ℚ) / 2 ^ 48 + 1 / 2 ^ 48 := by
        push_cast; ring
      have h8 : (1 : ℚ) / 2 ^ (47 + 1) = 1 / 2 ^ 48 := by norm_num
      rw [h8] at e4
      linarith
    rw [hstep]
    obtain ⟨s, hs, hs0', hs1', hs2⟩ := ih hvs (roundMagnitude (s0 + v)) (t0 + v) (k0 + 1)
      e2 e3 herr1 hk
    refine ⟨s, hs, hs0', hs1', ?_⟩
    have h9 : t0 + (v :: vs).sum = t0 + v + vs.sum := by simp [List.sum_cons]; ring
    rw [h9]
    exact hs2

theorem length_cast_ne_zero (scores : Scores) (hne : scores ≠ []) :
    ((scores.map Prod.snd).length : ℚ) ≠ 0 := by
  have : scores.length ≠ 0 := by simpa using hne
  simpa using this

/-- The average of a non-empty object of fewer than `2^32` values in `[0,10]` is a finite
number in `[0,10]`. -/
theorem calculateAverageScore_bounds (scores : Scores) (hne : scores ≠ [])
    (hrange : ∀ p ∈ scores, 0 ≤ p.2 ∧ p.2 ≤ 10) (hlen : scores.length < 2 ^ 32) :
    ∃ a : ℚ, calculateAverageScore scores = .fin a ∧ 0 ≤ a ∧ a ≤ 10 := by
  have hvals : ∀ v ∈ scores.map Prod.snd, 0 ≤ v ∧ v ≤ 10 := by
    intro v hv
    obtain ⟨p, hp, rfl⟩ := List.mem_map.mp hv
    exact hrange p hp
  have hn : ((scores.map Prod.snd).length : ℚ) ≠ 0 := length_cast_ne_zero scores hne
  have hnpos : (0 : ℚ) < ((scores.map Prod.snd).length : ℚ) :=
    lt_of_le_of_ne (by positivity) (Ne.symm hn)
  have hk : 10 * ((0 + (scores.map Prod.snd).length : ℕ) : ℚ) ≤ 2 ^ 53 := by
    have h1 : (scores.map Prod.snd).length < 2 ^ 32 := by simpa using hlen
    have h2 : ((0 + (scores.map Prod.snd).length : ℕ) : ℚ) ≤ 2 ^ 32 := by
      have : 0 + (scores.map Prod.snd).length ≤ 2 ^ 32 := by omega
      exact_mod_cast this
    calc 10 * ((0 + (scores.map Prod.snd).length : ℕ) : ℚ) ≤ 10 * 2 ^ 32 := by linarith
      _ ≤ 2 ^ 53 := by norm_num
  obtain ⟨s, hs, hs0, hs1⟩ := foldl_jsAdd_bounds (scores.map Prod.snd) hvals 0 0 le_rfl
    (by simp) hk
  have hq0 : 0 ≤ s / ((scores.map Prod.snd).length : ℚ) := div_nonneg hs0 hnpos.le
  have hq1 : s / ((scores.map Prod.snd).length : ℚ) ≤ 10 := by
    rw [div_le_iff₀ hnpos]
    simpa using hs1
  obtain ⟨e1, e2, e3⟩ := roundToDouble_fin_of_le _ 10 hq0 hq1 representable_ten (by norm_num)
  refine ⟨_, ?_, e2, e3⟩
  unfold calculateAverageScore
  simp only [hs, jsDiv, hn, if_false, e1]

/-- The average of six values in `[0,10]` is a finite number in `[0,10]` within `2^-47`
of their exact mean. -/
theorem calculateAverageScore_error (scores : Scores) (hlen : scores.length = 6)
    (hrange : ∀ p ∈ scores, 0 ≤ p.2 ∧ p.2 ≤ 10) :
    ∃ a : ℚ, calculateAverageScore scores = .fin a ∧ 0 ≤ a ∧ a ≤ 10 ∧
      |a - mean scores| ≤ 1 / 2 ^ 47 := by
  have hvals : ∀ v ∈ scores.map Prod.snd, 0 ≤ v ∧ v ≤ 10 := by
    intro v hv
    obtain ⟨p, hp, rfl⟩ := List.mem_map.mp hv
    exact hrange p hp
  have hl : (scores.map Prod.snd).length = 6 := by simpa using hlen
  obtain ⟨s, hs, hs0, hs1, hs2⟩ := foldl_jsAdd_error (scores.map Prod.snd) hvals 0 0 0 le_rfl
    (by simp) (by simp) (by omega)
  rw [hl] at hs1 hs2
  have hs1' : s ≤ 60 := by norm_num at hs1; linarith
  have hs2' : |s - (scores.map Prod.snd).sum| ≤ 6 / 2 ^ 48 := by
    norm_num at hs2 ⊢
    exact hs2
  have hq0 : 0 ≤ s / 6 := by positivity
  have hq1 : s / 6 ≤ 10 := by linarith
  obtain ⟨e1, e2, e3⟩ := roundToDouble_fin_of_le _ 10 hq0 hq1 representable_ten (by norm_num)
  have e4 := roundMagnitude_error (s / 6) hq0 49 (by norm_num) (by
    calc s / 6 * 2 ^ 49 ≤ 10 * 2 ^ 49 := mul_le_mul_of_nonneg_right hq1 (by positivity)
      _ ≤ 2 ^ 53 := by norm_num)
  refine ⟨roundMagnitude (s / 6), ?_, e2, e3, ?_⟩
  · unfold calculateAverageScore
    simp only [hs, jsDiv, hl]
    norm_num
    exact e1
  · have hm : mean scores = (scores.map Prod.snd).sum / 6 := by
      unfold mean
      rw [hlen]
      norm_num
    rw [hm]
    have h5 : roundMagnitude (s / 6) - (scores.map Prod.snd).sum / 6 =
        (roundMagnitude (s / 6) - s / 6) + (s - (scores.map Prod.snd).sum) / 6 := by ring
    rw [h5]
    have h6 := abs_add (roundMagnitude (s / 6) - s / 6) ((s - (scores.map Prod.snd).sum) / 6)
    have h7 : |(s - (scores.map Prod.snd).sum) / 6| ≤ 1 / 2 ^ 48 := by
      rw [abs_div]
      norm_num
      rw [div_le_iff₀ (by norm_num)]
      have : (6 : ℚ) / 2 ^ 48 = 1 / 281474976710656 * 6 := by norm_num
      linarith
    have h8 : (1 : ℚ) / 2 ^ (49 + 1) = 1 / 2 ^ 50 := by norm_num
    rw [h8] at e4
    have h9 : (1 : ℚ) / 2 ^ 50 + 1 / 2 ^ 48 ≤ 1 / 2 ^ 47 := by norm_num
    linarith

theorem roundHalfUp_bounds (a : ℚ) (h0 : 0 ≤ a) (h10 : a ≤ 10) :
    0 ≤ roundHalfUp (a * 100) ∧ roundHalfUp (a * 100) ≤ 1000 := by
  unfold roundHalfUp
  constructor
  · rw [Int.le_floor]
    push_cast
    linarith
  · have hlt : ⌊a * 100 + 1 / 2⌋ < 1001 := by
      rw [Int.floor_lt]
      push_cast
      linarith
    omega

theorem toFixed2_of_range (a : ℚ) (h0 : 0 ≤ a) (h10 : a ≤ 10) :
    toFixed2 (.fin a) = roundToDouble ((roundHalfUp (a * 100) : ℤ) / 100) := by
  have h1 : ¬ ((10 : ℚ) ^ 21 ≤ |a|) := by
    rw [abs_of_nonneg h0]
    have : (10 : ℚ) < 10 ^ 21 := by norm_num
    intro hc
    linarith
  have h2 : ¬ (a < 0) := not_lt.mpr h0
  simp [toFixed2, h1, h2]

/-- The number read back from a two-decimal numeral between 0 and 10 is finite, in
`[0,10]`, and on the same side of the thresholds 6 and 8 as the numeral. -/
theorem roundToDouble_hundredths (n : ℤ) (h0 : 0 ≤ n) (h1 : n ≤ 1000) :
    ∃ r : ℚ, roundToDouble ((n : ℚ) / 100) = .fin r ∧ 0 ≤ r ∧ r ≤ 10 ∧
      (8 ≤ r ↔ 800 ≤ n) ∧ (6 ≤ r ↔ 600 ≤ n) := by
  have hq0 : (0 : ℚ) ≤ (n : ℚ) / 100 := by
    have : (0 : ℚ) ≤ n := by exact_mod_cast h0
    positivity
  have hn1 : (n : ℚ) ≤ 1000 := by exact_mod_cast h1
  have hq1 : (n : ℚ) / 100 ≤ 10 := by linarith
  obtain ⟨e1, e2, e3⟩ := roundToDouble_fin_of_le _ 10 hq0 hq1 representable_ten (by norm_num)
  have rep8 : Representable 8 := by
    have := representable_int 8 (by norm_num)
    simpa using this
  have rep6 : Representable 6 := by
    have := representable_int 6 (by norm_num)
    simpa using this
  have repA : Representable (1023 / 128) := by
    have := representable_dyadic 1023 7 (by norm_num) (by norm_num)
    norm_num at this
    exact this
  have repB : Representable (767 / 128) := by
    have := representable_dyadic 767 7 (by norm_num) (by norm_num)
    norm_num at this
    exact this
  refine ⟨_, e1, e2, e3, ?_, ?_⟩
  · constructor
    · intro h8
      by_contra hc
      push_neg at hc
      have hn : n ≤ 799 := by omega
      have hnq : (n : ℚ) ≤ 799 := by exact_mod_cast hn
      have := roundMagnitude_le ((n : ℚ) / 100) (1023 / 128) hq0 (by linarith) repA
      linarith
    · intro hn
      have hnq : (800 : ℚ) ≤ n := by exact_mod_cast hn
      exact le_roundMagnitude ((n : ℚ) / 100) 8 hq0 (by linarith) rep8
  · constructor
    · intro h6
      by_contra hc
      push_neg at hc
      have hn : n ≤ 599 := by omega
      have hnq : (n : ℚ) ≤ 599 := by exact_mod_cast hn
      have := roundMagnitude_le ((n : ℚ) / 100) (767 / 128) hq0 (by linarith) repB
      linarith
    · intro hn
      have hnq : (600 : ℚ) ≤ n := by exact_mod_cast hn
      exact le_roundMagnitude ((n : ℚ) / 100) 6 hq0 (by linarith) rep6

theorem roundHalfUp_ge_iff (a : ℚ) (k : ℤ) :
    k ≤ roundHalfUp (a * 100) ↔ (k : ℚ) / 100 - 1 / 200 ≤ a := by
  unfold roundHalfUp
  rw [Int.le_floor]
  constructor <;> intro h <;> linarith

theorem roundHalfUp_close (a : ℚ) :
    |((roundHalfUp (a * 100) : ℤ) : ℚ) / 100 - a| ≤ 1 / 200 := by
  have h1 := Int.floor_le (a * 100 + 1 / 2)
  have h2 := Int.lt_floor_add_one (a * 100 + 1 / 2)
  unfold roundHalfUp
  rw [abs_le]
  constructor <;> linarith

/-- The bands of the prediction and of the stored average, in terms of the average `a`
that `calculateAverageScore` returns. -/
theorem createInspectionData_bands (env : Env) (w : World) (input : InspectionInput)
    (a : ℚ) (ha : calculateAverageScore input.scores = .fin a) (h0 : 0 ≤ a) (h10 : a ≤ 10) :
    (createInspectionData env w input).1.average =
      roundToDouble ((roundHalfUp (a * 100) : ℤ) / 100) ∧
    (createInspectionData env w input).1.predicted = predictFromScore (.fin a) ∧
    ((createInspectionData env w input).1.predicted =
        predictFromScore (createInspectionData env w input).1.average ↔
      ¬ (1199 / 200 ≤ a ∧ a < 6) ∧ ¬ (1599 / 200 ≤ a ∧ a < 8)) := by
  have havg : (createInspectionData env w input).1.average =
      roundToDouble ((roundHalfUp (a * 100) : ℤ) / 100) := by
    rw [createInspectionData_average_eq, ha, toFixed2_of_range a h0 h10]
  have hpred : (createInspectionData env w input).1.predicted = predictFromScore (.fin a) := by
    rw [createInspectionData_predicted_eq, ha]
  refine ⟨havg, hpred, ?_⟩
  obtain ⟨hn0, hn1⟩ := roundHalfUp_bounds a h0 h10
  obtain ⟨r, hr, _, _, hr8, hr6⟩ := roundToDouble_hundredths _ hn0 hn1
  rw [hpred, havg, hr, predictFromScore_fin, predictFromScore_fin]
  have h8 : 8 ≤ r ↔ (1599 : ℚ) / 200 ≤ a := by
    rw [hr8, roundHalfUp_ge_iff]
    norm_num
  have h6 : 6 ≤ r ↔ (1199 : ℚ) / 200 ≤ a := by
    rw [hr6, roundHalfUp_ge_iff]
    norm_num
  have hAR : ("Accepted (Predicted)" : String) ≠ "Recheck (Predicted)" := by decide
  have hAJ : ("Accepted (Predicted)" : String) ≠ "Rejected (Predicted)" := by decide
  have hRJ : ("Recheck (Predicted)" : String) ≠ "Rejected (Predicted)" := by decide
  by_cases c8 : 8 ≤ a
  · have hr8' : 8 ≤ r := h8.mpr (by linarith)
    simp only [c8, hr8', if_true, true_iff]
    constructor <;> intro hc <;> linarith [hc.1, hc.2]
  · by_cases c6 : 6 ≤ a
    · have hr6' : 6 ≤ r := h6.mpr (by linarith)
      by_cases d8 : 1599 / 200 ≤ a
      · have hr8' : 8 ≤ r := h8.mpr d8
        simp only [c8, c6, hr8', if_true, if_false]
        constructor
        · intro hc
          exact absurd hc.symm hAR
        · intro hc
          exact absurd ⟨d8, not_le.mp c8⟩ hc.2
      · have hr8' : ¬ 8 ≤ r := fun hc => d8 (h8.mp hc)
        simp only [c8, c6, hr8', hr6', if_true, if_false, true_iff]
        constructor
        · intro hc
          linarith [hc.2]
        · intro hc
          exact d8 hc.1
    · have hr8' : ¬ 8 ≤ r := fun hc => c6 (by linarith [h8.mp hc])
      by_cases d6 : 1199 / 200 ≤ a
      · have hr6' : 6 ≤ r := h6.mpr d6
        simp only [c8, c6, hr8', hr6', if_true, if_false]
        constructor
        · intro hc
          exact absurd hc.symm hRJ
        · intro hc
          exact absurd ⟨d6, not_le.mp c6⟩ hc.1
      · have hr6' : ¬ 6 ≤ r := fun hc => d6 (h6.mp hc)
        simp only [c8, c6, hr8', hr6', if_false, true_iff]
        constructor
        · intro hc
          exact d6 hc.1
        · intro hc
          linarith [hc.1, not_le.mp c6]

theorem exampleScores_valid :
    exampleScores.length = 6 ∧ ∀ p ∈ exampleScores, 0 ≤ p.2 ∧ p.2 ≤ 10 := by
  refine ⟨by simp [exampleScores], ?_⟩
  intro p hp
  simp only [exampleScores, List.mem_cons, List.mem_singleton, List.mem_nil_iff,
    or_false] at hp
  rcases hp with h | h | h | h | h | h <;> subst h <;> norm_num

theorem boundaryScores_valid :
    boundaryScores.length = 6 ∧ ∀ p ∈ boundaryScores, 0 ≤ p.2 ∧ p.2 ≤ 10 := by
  refine ⟨by simp [boundaryScores], ?_⟩
  intro p hp
  simp only [boundaryScores, List.mem_cons, List.mem_singleton, List.mem_nil_iff,
    or_false] at hp
  rcases hp with h | h | h | h | h | h <;> subst h <;> norm_num

theorem tieScores_valid :
    tieScores.length = 6 ∧ ∀ p ∈ tieScores, 0 ≤ p.2 ∧ p.2 ≤ 10 := by
  refine ⟨by simp [tieScores], ?_⟩
  intro p hp
  simp only [tieScores, List.mem_cons, List.mem_singleton, List.mem_nil_iff,
    or_false] at hp
  rcases hp with h | h | h | h | h | h <;> subst h <;> norm_num

theorem jsAdd_fin (a b : ℚ) : jsAdd (.fin a) (.fin b) = roundToDouble (a + b) := rfl

theorem roundToDouble_zero : roundToDouble 0 = .fin 0 :=
  roundToDouble_representable 0 le_rfl representable_zero (by norm_num)

theorem roundToDouble_ne_nan (q : ℚ) : roundToDouble q ≠ .nan := by
  unfold roundToDouble
  split_ifs <;> simp

theorem foldl_jsAdd_ne_nan (l : List ℚ) (acc : JSNum) (h : acc ≠ .nan) :
    l.foldl (fun a b => jsAdd a (.fin b)) acc ≠ .nan := by
  induction l generalizing acc with
  | nil => exact h
  | cons v vs ih =>
    simp only [List.foldl_cons]
    apply ih
    cases acc with
    | fin a => exact roundToDouble_ne_nan _
    | nan => exact absurd rfl h
    | posInf => simp [jsAdd]
    | negInf => simp [jsAdd]

theorem jsDiv_ne_nan (a : JSNum) (b : ℚ) (ha : a ≠ .nan) (hb : b ≠ 0) : jsDiv a b ≠ .nan := by
  cases a with
  | fin x =>
    simp only [jsDiv, hb, if_false]
    exact roundToDouble_ne_nan _
  | nan => exact absurd rfl ha
  | posInf =>
    simp only [jsDiv]
    split_ifs <;> simp
  | negInf =>
    simp only [jsDiv]
    split_ifs <;> simp

/-- Counterexample to C2: for the in-range scores 0, 0.45, 0, 0, 0, 0 (0.45 being the
binary64 number 8106479329266893 / 2^54) the exact mean, just above 0.075, rounds to
0.08, but the binary64 quotient is 5404319552844595 / 2^56, just below 0.075, and the
stored average is the number 0.07. -/
theorem createInspectionData_average_not_mean_rounded :
    tieScores.length = 6 ∧
    (∀ p ∈ tieScores, 0 ≤ p.2 ∧ p.2 ≤ 10) ∧
    roundToDouble (45 / 100) = .fin (8106479329266893 / 2 ^ 54) ∧
    calculateAverageScore tieScores = .fin (5404319552844595 / 2 ^ 56) ∧
    (createInspectionData demoEnv emptyWorld (inputWith tieScores)).1.average =
      roundToDouble (7 / 100) ∧
    IsRounded2 (mean tieScores) (8 / 100) ∧
    roundToDouble (7 / 100) ≠ roundToDouble (8 / 100) := by
  have hd : roundToDouble (8106479329266893 / 2 ^ 54) = .fin (8106479329266893 / 2 ^ 54) := by
    apply roundToDouble_representable _ (by norm_num) _ (by norm_num)
    have := representable_dyadic 8106479329266893 54 (by norm_num) (by norm_num)
    push_cast at this
    exact this
  have hcalc : calculateAverageScore tieScores = .fin (5404319552844595 / 2 ^ 56) := by
    have hq : roundToDouble (8106479329266893 / 2 ^ 54 / 6) =
        .fin (5404319552844595 / 2 ^ 56) := by
      have := roundToDouble_eval (8106479329266893 / 2 ^ 54 / 6) 56 5404319552844595
        (by norm_num) (by norm_num) (by norm_num) (by rw [abs_lt]; constructor <;> norm_num)
      push_cast at this
      exact this
    unfold calculateAverageScore tieScores
    simp only [List.map_cons, List.map_nil, List.foldl_cons, List.foldl_nil, jsAdd_fin,
      zero_add, add_zero, roundToDouble_zero, hd, List.length_cons, List.length_nil, jsDiv]
    norm_num at hq ⊢
    exact hq
  refine ⟨tieScores_valid.1, tieScores_valid.2, ?_, hcalc, ?_, ?_, ?_⟩
  · have := roundToDouble_eval (45 / 100) 54 8106479329266893
      (by norm_num) (by norm_num) (by norm_num) (by rw [abs_lt]; constructor <;> norm_num)
    push_cast at this
    exact this
  · rw [createInspectionData_average_eq]
    show toFixed2 (calculateAverageScore tieScores) = _
    rw [hcalc, toFixed2_of_range _ (by norm_num) (by norm_num)]
    have hfl : roundHalfUp (5404319552844595 / 2 ^ 56 * 100) = 7 := by
      unfold roundHalfUp
      rw [Int.floor_eq_iff]
      constructor <;> norm_num
    rw [hfl]
    norm_num
  · refine ⟨⟨8, by norm_num⟩, ?_, ?_⟩ <;> norm_num [mean, tieScores]
  · have rep1 : Representable (9 / 128) := by
      have := representable_dyadic 9 7 (by norm_num) (by norm_num)
      norm_num at this
      exact this
    have rep2 : Representable (5 / 64) := by
      have := representable_dyadic 5 6 (by norm_num) (by norm_num)
      norm_num at this
      exact this
    obtain ⟨e1, _, e3⟩ := roundToDouble_fin_of_le (7 / 100) (9 / 128) (by norm_num)
      (by norm_num) rep1 (by norm_num)
    obtain ⟨f1, _, _⟩ := roundToDouble_fin_of_le (8 / 100) 10 (by norm_num)
      (by norm_num) representable_ten (by norm_num)
    have f3 := le_roundMagnitude (8 / 100) (5 / 64) (by norm_num) (by norm_num) rep2
    rw [e1, f1]
    intro hc
    have heq : roundMagnitude (7 / 100) = roundMagnitude (8 / 100) := JSNum.fin.inj hc
    rw [heq] at e3
    linarith

/-- C2 (amended): for every input whose score object has six entries with values in
`[0,10]`, `calculateAverageScore` returns a binary64 number `a` within `2^-47` of the
exact mean, and the stored `average` is the number read back from `a` rounded to two
decimal places, a numeral within `0.005 + 2^-47` of the exact mean; for the scores 8.5,
8, 7.5, 9, 8, 8 it is the number 8.17. -/
theorem createInspectionData_average_rounded (env : Env) (w : World)
    (input : InspectionInput) (hlen : input.scores.length = 6)
    (hrange : ∀ p ∈ input.scores, 0 ≤ p.2 ∧ p.2 ≤ 10) :
    (∃ (a : ℚ) (n : ℤ), calculateAverageScore input.scores = .fin a ∧
      |a - mean input.scores| ≤ 1 / 2 ^ 47 ∧
      IsRounded2 a ((n : ℚ) / 100) ∧
      |(n : ℚ) / 100 - mean input.scores| ≤ 1 / 200 + 1 / 2 ^ 47 ∧
      (createInspectionData env w input).1.average = roundToDouble ((n : ℚ) / 100)) ∧
    (createInspectionData env w { input with scores := exampleScores }).1.average =
      roundToDouble (817 / 100) := by
  constructor
  · obtain ⟨a, ha, h0, h10, herr⟩ := calculateAverageScore_error input.scores hlen hrange
    refine ⟨a, roundHalfUp (a * 100), ha, herr, ?_, ?_, ?_⟩
    · exact isRounded2_roundHalfUp a
    · have h1 := roundHalfUp_close a
      have h2 : ((roundHalfUp (a * 100) : ℤ) : ℚ) / 100 - mean input.scores =
          (((roundHalfUp (a * 100) : ℤ) : ℚ) / 100 - a) + (a - mean input.scores) := by ring
      rw [h2]
      have h3 := abs_add (((roundHalfUp (a * 100) : ℤ) : ℚ) / 100 - a) (a - mean input.scores)
      linarith
    · exact (createInspectionData_bands env w input a ha h0 h10).1
  · obtain ⟨a, ha, h0, h10, herr⟩ :=
      calculateAverageScore_error exampleScores exampleScores_valid.1 exampleScores_valid.2
    have havg := (createInspectionData_bands env w { input with scores := exampleScores } a ha
      h0 h10).1
    rw [havg]
    rw [mean_exampleScores, abs_le] at herr
    have hfl : roundHalfUp (a * 100) = 817 := by
      unfold roundHalfUp
      rw [Int.floor_eq_iff]
      constructor <;> norm_num at herr ⊢ <;> linarith [herr.1, herr.2]
    rw [hfl]
    norm_num

/-- Witness of C2 (amended): the specification's example scores are a six-entry in-range
object. -/
theorem createInspectionData_average_rounded_witness :
    (∃ (a : ℚ) (n : ℤ), calculateAverageScore (inputWith exampleScores).scores = .fin a ∧
      |a - mean (inputWith exampleScores).scores| ≤ 1 / 2 ^ 47 ∧
      IsRounded2 a ((n : ℚ) / 100) ∧
      |(n : ℚ) / 100 - mean (inputWith exampleScores).scores| ≤ 1 / 200 + 1 / 2 ^ 47 ∧
      (createInspectionData demoEnv emptyWorld (inputWith exampleScores)).1.average =
        roundToDouble ((n : ℚ) / 100)) ∧
    (createInspectionData demoEnv emptyWorld
        { inputWith exampleScores with scores := exampleScores }).1.average =
      roundToDouble (817 / 100) :=
  createInspectionData_average_rounded demoEnv emptyWorld (inputWith exampleScores)
    exampleScores_valid.1 exampleScores_valid.2

/-- Counterexample to C3: for the in-range scores 8, 8, 8, 8, 8, 7.98 (7.98 being the
binary64 number 2246170314151035 / 2^48) the record stores `average = 8` while
`predicted` is "Recheck (Predicted)", although the band of the stored average is
"Accepted (Predicted)". -/
theorem createInspectionData_predicted_not_band_of_stored :
    boundaryScores.length = 6 ∧
    (∀ p ∈ boundaryScores, 0 ≤ p.2 ∧ p.2 ≤ 10) ∧
    roundToDouble (399 / 50) = .fin (2246170314151035 / 2 ^ 48) ∧
    (createInspectionData demoEnv emptyWorld (inputWith boundaryScores)).1.average = .fin 8 ∧
    (createInspectionData demoEnv emptyWorld (inputWith boundaryScores)).1.predicted
      = "Recheck (Predicted)" ∧
    (createInspectionData demoEnv emptyWorld (inputWith boundaryScores)).1.predicted ≠
      predictFromScore
        (createInspectionData demoEnv emptyWorld (inputWith boundaryScores)).1.average := by
  obtain ⟨a, ha, h0, h10, herr⟩ :=
    calculateAverageScore_error boundaryScores boundaryScores_valid.1 boundaryScores_valid.2
  have hm1 : (7996 : ℚ) / 1000 ≤ mean boundaryScores := by norm_num [mean, boundaryScores]
  have hm2 : mean boundaryScores ≤ 7997 / 1000 := by norm_num [mean, boundaryScores]
  rw [abs_le] at herr
  have ha1 : (1599 : ℚ) / 200 ≤ a := by norm_num at herr ⊢; linarith [herr.1]
  have ha2 : a < 8 := by norm_num at herr ⊢; linarith [herr.2]
  obtain ⟨havg, hpred, hiff⟩ :=
    createInspectionData_bands demoEnv emptyWorld (inputWith boundaryScores) a ha h0 h10
  have hfl : roundHalfUp (a * 100) = 800 := by
    unfold roundHalfUp
    rw [Int.floor_eq_iff]
    constructor <;> norm_num <;> linarith
  have h8 : roundToDouble 8 = .fin 8 := by
    apply roundToDouble_representable 8 (by norm_num) _ (by norm_num)
    have := representable_int 8 (by norm_num)
    simpa using this
  have havg8 : (createInspectionData demoEnv emptyWorld (inputWith boundaryScores)).1.average
      = .fin 8 := by
    rw [havg, hfl]
    norm_num
    exact h8
  have hrecheck : (createInspectionData demoEnv emptyWorld
      (inputWith boundaryScores)).1.predicted = "Recheck (Predicted)" := by
    rw [hpred, predictFromScore_fin, if_neg (not_le.mpr ha2), if_pos (by linarith)]
  refine ⟨boundaryScores_valid.1, boundaryScores_valid.2, ?_, havg8, hrecheck, ?_⟩
  · have := roundToDouble_eval (399 / 50) 50 8984681256604140
      (by norm_num) (by norm_num) (by norm_num) (by rw [abs_lt]; constructor <;> norm_num)
    norm_num at this ⊢
    exact this
  · intro hc
    exact (hiff.mp hc).2 ⟨ha1, ha2⟩

/-- C3 (amended): for every input whose score object has six entries with values in
`[0,10]`, `predicted` is the band of the unrounded average `a` that
`calculateAverageScore` computes in binary64 (a number within `2^-47` of the exact
mean), and it equals the band of the stored two-decimal average exactly when `a` lies
outside the two intervals `[5.995, 6)` and `[7.995, 8)`. -/
theorem createInspectionData_predicted_band (env : Env) (w : World)
    (input : InspectionInput) (hlen : input.scores.length = 6)
    (hrange : ∀ p ∈ input.scores, 0 ≤ p.2 ∧ p.2 ≤ 10) :
    ∃ a : ℚ, calculateAverageScore input.scores = .fin a ∧
      |a - mean input.scores| ≤ 1 / 2 ^ 47 ∧
      (createInspectionData env w input).1.predicted = predictFromScore (.fin a) ∧
      ((createInspectionData env w input).1.predicted =
          predictFromScore (createInspectionData env w input).1.average ↔
        ¬ (1199 / 200 ≤ a ∧ a < 6) ∧ ¬ (1599 / 200 ≤ a ∧ a < 8)) := by
  obtain ⟨a, ha, h0, h10, herr⟩ := calculateAverageScore_error input.scores hlen hrange
  obtain ⟨_, hpred, hiff⟩ := createInspectionData_bands env w input a ha h0 h10
  exact ⟨a, ha, herr, hpred, hiff⟩

/-- Witness of C3 (amended): the example scores are six in-range values; their record is
predicted from the unrounded binary64 average. -/
theorem createInspectionData_predicted_band_witness :
    ∃ a : ℚ, calculateAverageScore (inputWith exampleScores).scores = .fin a ∧
      |a - mean (inputWith exampleScores).scores| ≤ 1 / 2 ^ 47 ∧
      (createInspectionData demoEnv emptyWorld (inputWith exampleScores)).1.predicted =
        predictFromScore (.fin a) ∧
      ((createInspectionData demoEnv emptyWorld (inputWith exampleScores)).1.predicted =
          predictFromScore
            (createInspectionData demoEnv emptyWorld (inputWith exampleScores)).1.average ↔
        ¬ (1199 / 200 ≤ a ∧ a < 6) ∧ ¬ (1599 / 200 ≤ a ∧ a < 8)) :=
  createInspectionData_predicted_band demoEnv emptyWorld (inputWith exampleScores)
    exampleScores_valid.1 exampleScores_valid.2

/-- Counterexample to C4: for a one-entry score object whose value 11 is out of range,
`calculateAverageScore` returns the number 11 instead of failing. -/
theorem calculateAverageScore_accepts_invalid :
    ([("fabric", 11)] : Scores).length < 6 ∧
    ¬ ((11 : ℚ) ≤ 10) ∧
    calculateAverageScore [("fabric", 11)] = .fin 11 := by
  refine ⟨by simp, by norm_num, ?_⟩
  have h11 : roundToDouble 11 = .fin 11 := by
    apply roundToDouble_representable 11 (by norm_num) _ (by norm_num)
    have := representable_int 11 (by norm_num)
    simpa using this
  unfold calculateAverageScore
  simp only [List.map_cons, List.map_nil, List.foldl_cons, List.foldl_nil, jsAdd_fin,
    zero_add, h11, List.length_cons, List.length_nil, jsDiv]
  norm_num
  exact h11

/-- C4 (amended): `calculateAverageScore` validates nothing and never fails: for every
score object, whatever its number of entries and its values, it returns a number, and
that number is `NaN` exactly when the object is empty. -/
theorem calculateAverageScore_nan_iff (scores : Scores) :
    calculateAverageScore scores = .nan ↔ scores = [] := by
  constructor
  · intro h
    by_contra hne
    have hn := length_cast_ne_zero scores hne
    have h1 := foldl_jsAdd_ne_nan (scores.map Prod.snd) (.fin 0) (by simp)
    exact jsDiv_ne_nan _ _ h1 hn h
  · intro h
    subst h
    simp [calculateAverageScore, jsDiv]

/-! ## ModalManager.handleFormSubmission: rejected submissions -/

theorem truthy_eq_false_iff (v : Option String) : truthy v = false ↔ EmptyOrMissing v := by
  cases v with
  | none => simp [truthy, EmptyOrMissing]
  | some s => simp [truthy, EmptyOrMissing]

/-- C5: when product, vendor or inspector is empty or missing, `handleFormSubmission`
returns the state it was given: no random id is drawn (no record is created), the
persisted entry is untouched, and a read after the submission returns what a read before
it returns. -/
theorem handleFormSubmission_rejects (env : Env) (form : FormValues) (w : World)
    (h : EmptyOrMissing form.product ∨ EmptyOrMissing form.vendor ∨
      EmptyOrMissing form.inspector) :
    handleFormSubmission env form w = w ∧
    (handleFormSubmission env form w).storage = w.storage ∧
    (handleFormSubmission env form w).draws = w.draws ∧
    readData env (handleFormSubmission env form w) = readData env w := by
  have hw : handleFormSubmission env form w = w := by
    unfold handleFormSubmission
    rw [if_pos]
    rcases h with h | h | h
    · simp [(truthy_eq_false_iff _).mpr h]
    · simp [(truthy_eq_false_iff _).mpr h]
    · simp [(truthy_eq_false_iff _).mpr h]
  rw [hw]
  exact ⟨rfl, rfl, rfl, rfl⟩

/-- Witness of C5: a submission without a vendor. -/
theorem handleFormSubmission_rejects_witness :
    handleFormSubmission demoEnv formNoVendor demoWorld = demoWorld ∧
    (handleFormSubmission demoEnv formNoVendor demoWorld).storage = demoWorld.storage ∧
    (handleFormSubmission demoEnv formNoVendor demoWorld).draws = demoWorld.draws ∧
    readData demoEnv (handleFormSubmission demoEnv formNoVendor demoWorld)
      = readData demoEnv demoWorld :=
  handleFormSubmission_rejects demoEnv formNoVendor demoWorld (Or.inr (Or.inl (Or.inl rfl)))

/-! ## TableManager.updateStatus -/

theorem updateStatus_eq (env : Env) (id status : String) (w : World) :
    updateStatus env id status w =
      match findIndex (readData env w).1 id with
      | some i =>
        (saveData env (setManagerStatus (readData env w).1 i status) (readData env w).2).2
      | none => (readData env w).2 := rfl

theorem readData_of_some (env : Env) (w : World) (data : List Record)
    (h : w.storage = some data) : readData env w = (data, w) := by
  unfold readData
  rw [h]

theorem saveData_of_accepts (env : Env) (data : List Record) (w : World)
    (h : env.accepts data = true) :
    (saveData env data w).2 = { w with storage := some data } := by
  simp [saveData, h]

theorem findIndex_eq_none_iff (data : List Record) (id : String) :
    findIndex data id = none ↔ ∀ r ∈ data, r.id ≠ id := by
  simp [findIndex]

theorem findIndex_eq_some (data : List Record) (id : String) (i : Nat)
    (h : findIndex data id = some i) :
    ∃ r, data[i]? = some r ∧ r.id = id ∧
      ∀ j r2, j < i → data[j]? = some r2 → r2.id ≠ id := by
  unfold findIndex at h
  rw [List.findIdx?_eq_some_iff_getElem] at h
  obtain ⟨hlt, hp, hbefore⟩ := h
  refine ⟨data[i], List.getElem?_eq_getElem hlt, by simpa using hp, ?_⟩
  intro j r2 hj hr2
  have hjl : j < data.length := Nat.lt_trans hj hlt
  have := hbefore j hj
  rw [List.getElem?_eq_getElem hjl] at hr2
  cases hr2
  simpa using this

theorem findIndex_isSome_of_mem (data : List Record) (id : String)
    (h : ∃ r ∈ data, r.id = id) : ∃ i, findIndex data id = some i := by
  cases hf : findIndex data id with
  | some i => exact ⟨i, rfl⟩
  | none =>
    obtain ⟨r, hr, hid⟩ := h
    exact absurd hid ((findIndex_eq_none_iff data id).mp hf r hr)

theorem setManagerStatus_of_getElem? (data : List Record) (i : Nat) (status : String)
    (r : Record) (h : data[i]? = some r) :
    setManagerStatus data i status = data.set i { r with managerStatus := status } := by
  simp [setManagerStatus, h]

theorem map_id_setManagerStatus (data : List Record) (i : Nat) (status : String) :
    (setManagerStatus data i status).map (fun r => r.id) = data.map (fun r => r.id) := by
  unfold setManagerStatus
  cases h : data[i]? with
  | none => rfl
  | some r =>
    simp only
    apply List.ext_getElem?
    intro j
    by_cases hij : i = j
    · subst hij
      simp [List.getElem?_set, h]
      rcases Nat.lt_or_ge i data.length with hl | hl
      · exact hl
      · rw [List.getElem?_eq_none hl] at h
        cases h
    · simp [List.getElem?_set_ne hij]

theorem findIndex_setManagerStatus (data : List Record) (i : Nat) (status id : String) :
    findIndex (setManagerStatus data i status) id = findIndex data id := by
  have h1 : ∀ l : List Record,
      findIndex l id = (l.map (fun r => r.id)).findIdx? (fun x => x == id) := by
    intro l
    simp [findIndex, List.findIdx?_map, Function.comp_def]
  rw [h1, h1, map_id_setManagerStatus]

theorem setManagerStatus_twice (data : List Record) (i : Nat) (s1 s2 : String) :
    setManagerStatus (setManagerStatus data i s1) i s2 = setManagerStatus data i s2 := by
  cases h : data[i]? with
  | none => simp [setManagerStatus, h]
  | some r =>
    have hlt : i < data.length := by
      rcases Nat.lt_or_ge i data.length with hl | hl
      · exact hl
      · rw [List.getElem?_eq_none hl] at h
        cases h
    rw [setManagerStatus_of_getElem? data i s1 r h]
    have h2 : (data.set i { r with managerStatus := s1 })[i]? =
        some { r with managerStatus := s1 } := by
      simp [List.getElem?_set, hlt]
    rw [setManagerStatus_of_getElem? _ i s2 _ h2, setManagerStatus_of_getElem? data i s2 r h,
      List.set_set]

/-- C6: when the set returned by `readData` contains a record with the given id and the
write is accepted, `updateStatus id status` persists a set of the same length in which
the first record with that id has `managerStatus = status` and all its other fields (id,
product, vendor, inspector, batchId, scores, notes, img, average, predicted, timestamp)
as before, and every other position holds the record it held before. -/
theorem updateStatus_frame (env : Env) (w : World) (id status : String)
    (data : List Record) (hread : (readData env w).1 = data)
    (hmem : ∃ r ∈ data, r.id = id) (hacc : ∀ d, env.accepts d = true) :
    ∃ (out : List Record) (i : Nat) (r : Record),
      (updateStatus env id status w).storage = some out ∧
      out.length = data.length ∧
      data[i]? = some r ∧ r.id = id ∧
      (∀ j r2, j < i → data[j]? = some r2 → r2.id ≠ id) ∧
      out[i]? = some { r with managerStatus := status } ∧
      ∀ j, j ≠ i → out[j]? = data[j]? := by
  subst hread
  obtain ⟨i, hi⟩ := findIndex_isSome_of_mem _ id hmem
  obtain ⟨r, hr, hid, hfirst⟩ := findIndex_eq_some _ id i hi
  have hlt : i < (readData env w).1.length := by
    rcases Nat.lt_or_ge i (readData env w).1.length with hl | hl
    · exact hl
    · rw [List.getElem?_eq_none hl] at hr
      cases hr
  refine ⟨(readData env w).1.set i { r with managerStatus := status }, i, r, ?_, ?_, hr, hid,
    hfirst, ?_, ?_⟩
  · rw [updateStatus_eq, hi]
    simp only
    rw [saveData_of_accepts _ _ _ (hacc _), setManagerStatus_of_getElem? _ i status r hr]
  · simp
  · simp [List.getElem?_set, hlt]
  · intro j hj
    exact List.getElem?_set_ne (Ne.symm hj)

/-- Witness of C6: accepting the second of three pending records. -/
theorem updateStatus_frame_witness :
    ∃ (out : List Record) (i : Nat) (r : Record),
      (updateStatus demoEnv "ins_b" "Accepted" demoWorld).storage = some out ∧
      out.length = [demoRecord "ins_a" "Pending", demoRecord "ins_b" "Pending",
        demoRecord "ins_c" "Pending"].length ∧
      [demoRecord "ins_a" "Pending", demoRecord "ins_b" "Pending",
        demoRecord "ins_c" "Pending"][i]? = some r ∧ r.id = "ins_b" ∧
      (∀ j r2, j < i → [demoRecord "ins_a" "Pending", demoRecord "ins_b" "Pending",
        demoRecord "ins_c" "Pending"][j]? = some r2 → r2.id ≠ "ins_b") ∧
      out[i]? = some { r with managerStatus := "Accepted" } ∧
      ∀ j, j ≠ i → out[j]? = [demoRecord "ins_a" "Pending", demoRecord "ins_b" "Pending",
        demoRecord "ins_c" "Pending"][j]? :=
  updateStatus_frame demoEnv demoWorld "ins_b" "Accepted" _ rfl
    ⟨demoRecord "ins_b" "Pending", by simp, rfl⟩ (fun _ => rfl)

/-- C7: when no record of the set returned by `readData` carries the given id,
`updateStatus` stops after the read: the state is the one the read leaves, and for a
state with a persisted set it is the state it was given, so no record is modified and
nothing is written back. -/
theorem updateStatus_unknown_id (env : Env) (w : World) (id status : String)
    (h : ∀ r ∈ (readData env w).1, r.id ≠ id) :
    updateStatus env id status w = (readData env w).2 ∧
    ∀ data, w.storage = some data →
      updateStatus env id status w = w ∧
      (updateStatus env id status w).storage = some data := by
  have h1 : updateStatus env id status w = (readData env w).2 := by
    rw [updateStatus_eq, (findIndex_eq_none_iff _ id).mpr h]
  refine ⟨h1, ?_⟩
  intro data hdata
  rw [h1, readData_of_some env w data hdata]
  exact ⟨rfl, hdata⟩

/-- Witness of C7: an id that none of the three stored records carries. -/
theorem updateStatus_unknown_id_witness :
    updateStatus demoEnv "ins_zzz" "Accepted" demoWorld = (readData demoEnv demoWorld).2 ∧
    ∀ data, demoWorld.storage = some data →
      updateStatus demoEnv "ins_zzz" "Accepted" demoWorld = demoWorld ∧
      (updateStatus demoEnv "ins_zzz" "Accepted" demoWorld).storage = some data :=
  updateStatus_unknown_id demoEnv demoWorld "ins_zzz" "Accepted" (by
    intro r hr
    have hmem : r ∈ [demoRecord "ins_a" "Pending", demoRecord "ins_b" "Pending",
        demoRecord "ins_c" "Pending"] := hr
    simp only [List.mem_cons, List.mem_singleton, List.mem_nil_iff, or_false] at hmem
    rcases hmem with h | h | h <;> subst h <;> decide)

/-- C8: on a persisted set, with writes accepted, a status decision overwrites the
earlier one: `updateStatus id s1` followed by `updateStatus id s2` leaves the same state
as `updateStatus id s2` alone, and repeating a decision changes nothing further. When
the set holds a record with the id, both steps take effect on the first such record,
whatever its status was before: after the first step the persisted set is the original
one with that record reading `s1`, after the second step it is the original one with that
record reading `s2`. -/
theorem updateStatus_overwrite (env1 env2 : Env) (w : World) (data : List Record)
    (id s1 s2 : String) (hst : w.storage = some data)
    (hacc1 : ∀ d, env1.accepts d = true) (hacc2 : ∀ d, env2.accepts d = true) :
    (updateStatus env2 id s2 (updateStatus env1 id s1 w) = updateStatus env2 id s2 w ∧
      updateStatus env2 id s2 (updateStatus env2 id s2 w) = updateStatus env2 id s2 w) ∧
    ((∃ r ∈ data, r.id = id) →
      ∃ (i : Nat) (r : Record),
        data[i]? = some r ∧ r.id = id ∧
        (∀ (j : Nat) (r2 : Record), j < i → data[j]? = some r2 → r2.id ≠ id) ∧
        (updateStatus env1 id s1 w).storage =
          some (data.set i { r with managerStatus := s1 }) ∧
        (updateStatus env2 id s2 (updateStatus env1 id s1 w)).storage =
          some (data.set i { r with managerStatus := s2 })) := by
  have step : ∀ (env : Env) (s : String) (v : World) (d : List Record),
      (∀ x, env.accepts x = true) → v.storage = some d →
      updateStatus env id s v =
        match findIndex d id with
        | some i => { v with storage := some (setManagerStatus d i s) }
        | none => v := by
    intro env s v d hacc hv
    rw [updateStatus_eq, readData_of_some env v d hv]
    simp only
    cases findIndex d id with
    | none => rfl
    | some i => simp only; rw [saveData_of_accepts _ _ _ (hacc _)]
  have seq : ∀ (envA envB : Env) (sA sB : String),
      (∀ x, envA.accepts x = true) → (∀ x, envB.accepts x = true) →
      updateStatus envB id sB (updateStatus envA id sA w) = updateStatus envB id sB w := by
    intro envA envB sA sB hA hB
    rw [step envA sA w data hA hst, step envB sB w data hB hst]
    cases hf : findIndex data id with
    | none =>
      simp only
      rw [step envB sB w data hB hst, hf]
    | some i =>
      simp only
      rw [step envB sB { w with storage := some (setManagerStatus data i sA) }
        (setManagerStatus data i sA) hB rfl, findIndex_setManagerStatus, hf]
      simp only
      rw [setManagerStatus_twice]
  refine ⟨⟨seq env1 env2 s1 s2 hacc1 hacc2, seq env2 env2 s2 s2 hacc2 hacc2⟩, ?_⟩
  intro hmem
  obtain ⟨i, hi⟩ := findIndex_isSome_of_mem data id hmem
  obtain ⟨r, hr, hid, hfirst⟩ := findIndex_eq_some data id i hi
  refine ⟨i, r, hr, hid, hfirst, ?_, ?_⟩
  · rw [step env1 s1 w data hacc1 hst, hi]
    simp only
    rw [setManagerStatus_of_getElem? data i s1 r hr]
  · rw [seq env1 env2 s1 s2 hacc1 hacc2, step env2 s2 w data hacc2 hst, hi]
    simp only
    rw [setManagerStatus_of_getElem? data i s2 r hr]

/-- Witness of C8: of three pending records the second is accepted and then rejected;
the persisted set ends with that record reading "Rejected" and the two others as they
were. -/
theorem updateStatus_overwrite_witness :
    ((updateStatus demoEnv "ins_b" "Rejected"
          (updateStatus demoEnv "ins_b" "Accepted" demoWorld)
        = updateStatus demoEnv "ins_b" "Rejected" demoWorld ∧
      updateStatus demoEnv "ins_b" "Rejected"
          (updateStatus demoEnv "ins_b" "Rejected" demoWorld)
        = updateStatus demoEnv "ins_b" "Rejected" demoWorld) ∧
    ∃ (i : Nat) (r : Record),
      [demoRecord "ins_a" "Pending", demoRecord "ins_b" "Pending",
        demoRecord "ins_c" "Pending"][i]? = some r ∧ r.id = "ins_b" ∧
      (∀ (j : Nat) (r2 : Record), j < i →
        [demoRecord "ins_a" "Pending", demoRecord "ins_b" "Pending",
          demoRecord "ins_c" "Pending"][j]? = some r2 → r2.id ≠ "ins_b") ∧
      (updateStatus demoEnv "ins_b" "Accepted" demoWorld).storage =
        some ([demoRecord "ins_a" "Pending", demoRecord "ins_b" "Pending",
          demoRecord "ins_c" "Pending"].set i { r with managerStatus := "Accepted" }) ∧
      (updateStatus demoEnv "ins_b" "Rejected"
          (updateStatus demoEnv "ins_b" "Accepted" demoWorld)).storage =
        some ([demoRecord "ins_a" "Pending", demoRecord "ins_b" "Pending",
          demoRecord "ins_c" "Pending"].set i { r with managerStatus := "Rejected" })) ∧
    (updateStatus demoEnv "ins_b" "Accepted" demoWorld).storage =
      some [demoRecord "ins_a" "Pending", demoRecord "ins_b" "Accepted",
        demoRecord "ins_c" "Pending"] ∧
    (updateStatus demoEnv "ins_b" "Rejected"
        (updateStatus demoEnv "ins_b" "Accepted" demoWorld)).storage =
      some [demoRecord "ins_a" "Pending", demoRecord "ins_b" "Rejected",
        demoRecord "ins_c" "Pending"] :=
  ⟨⟨(updateStatus_overwrite demoEnv demoEnv demoWorld _ "ins_b" "Accepted" "Rejected" rfl
      (fun _ => rfl) (fun _ => rfl)).1,
    (updateStatus_overwrite demoEnv demoEnv demoWorld _ "ins_b" "Accepted" "Rejected" rfl
      (fun _ => rfl) (fun _ => rfl)).2 ⟨demoRecord "ins_b" "Pending", by simp, rfl⟩⟩,
   rfl, rfl⟩

/-! ## ReportManager.convertToCSV -/

theorem foldl_push {α β : Type} (f : α → β) (l : List α) (acc : List β) :
    l.foldl (fun rows item => rows ++ [f item]) acc = acc ++ l.map f := by
  induction l generalizing acc with
  | nil => simp
  | cons x xs ih => simp [ih]

theorem intercalate_go_data (sep : String) (l : List String) (acc : String) :
    (String.intercalate.go acc sep l).data =
      acc.data ++ l.flatMap (fun x => sep.data ++ x.data) := by
  induction l generalizing acc with
  | nil => simp [String.intercalate.go]
  | cons x xs ih => simp [String.intercalate.go, ih, List.append_assoc]

theorem intercalate_cons_data (sep h : String) (l : List String) :
    (sep.intercalate (h :: l)).data = h.data ++ l.flatMap (fun x => sep.data ++ x.data) := by
  simp [String.intercalate, intercalate_go_data]

theorem convertToCSV_eq (env : Env) (data : List Record) :
    convertToCSV env data =
      "\n".intercalate (",".intercalate csvHeaders ::
        data.map (fun item => ",".intercalate (csvCells env item))) := by
  unfold convertToCSV
  simp only [foldl_push]
  rfl

/-- C10: `convertToCSV` returns the header row
"Product,Vendor,Inspector,Batch ID,Average Score,Status,Timestamp" followed by one row
per record, in the order of the list, the rows joined by a newline; a row holds product,
vendor, inspector, batchId, the average, managerStatus and the formatted timestamp in
that order, separated by commas, each wrapped in double quotes except the average. -/
theorem convertToCSV_layout (env : Env) (data : List Record) :
    convertToCSV env data =
      "\n".intercalate
        ("Product,Vendor,Inspector,Batch ID,Average Score,Status,Timestamp" ::
          data.map (fun item =>
            "\"" ++ item.product ++ "\"" ++ "," ++
            "\"" ++ item.vendor ++ "\"" ++ "," ++
            "\"" ++ item.inspector ++ "\"" ++ "," ++
            "\"" ++ item.batchId ++ "\"" ++ "," ++
            env.numToString item.average ++ "," ++
            "\"" ++ item.managerStatus ++ "\"" ++ "," ++
            "\"" ++ env.localeString item.timestamp ++ "\"")) := by
  rw [convertToCSV_eq]
  have hh : ",".intercalate csvHeaders =
      "Product,Vendor,Inspector,Batch ID,Average Score,Status,Timestamp" := by decide
  have hrow : (fun item : Record => ",".intercalate (csvCells env item)) =
      (fun item =>
        "\"" ++ item.product ++ "\"" ++ "," ++
        "\"" ++ item.vendor ++ "\"" ++ "," ++
        "\"" ++ item.inspector ++ "\"" ++ "," ++
        "\"" ++ item.batchId ++ "\"" ++ "," ++
        env.numToString item.average ++ "," ++
        "\"" ++ item.managerStatus ++ "\"" ++ "," ++
        "\"" ++ env.localeString item.timestamp ++ "\"") := by
    funext item
    simp only [csvCells, quoted, String.intercalate, String.intercalate.go,
      String.append_assoc]
  rw [hh, hrow]

/-! ## Reading the export back -/

theorem csvRun_append (st : CsvState) (a b : List Char) :
    csvRun st (a ++ b) =
      match csvRun st a with
      | some st2 => csvRun st2 b
      | none => none := by
  induction a generalizing st with
  | nil => rfl
  | cons c cs ih =>
    simp only [List.cons_append, csvRun]
    cases csvStep st c with
    | none => rfl
    | some st2 => exact ih st2

theorem csvRun_quotedBody (cs : List Char) (h : dquote ∉ cs) (rows : List (List String))
    (row : List String) (buf : List Char) :
    csvRun ⟨rows, row, buf, .quotedBody⟩ cs = some ⟨rows, row, buf ++ cs, .quotedBody⟩ := by
  induction cs generalizing buf with
  | nil => simp [csvRun]
  | cons c cs ih =>
    have hc : c ≠ dquote := fun e => h (by simp [e])
    have hcs : dquote ∉ cs := fun e => h (by simp [e])
    simp only [csvRun, csvStep, hc, if_false]
    rw [ih hcs]
    simp

theorem csvRun_plain (cs : List Char)
    (h : ∀ c ∈ cs, c ≠ dquote ∧ c ≠ ',' ∧ c ≠ '\n') (rows : List (List String))
    (row : List String) (buf : List Char) :
    csvRun ⟨rows, row, buf, .plain⟩ cs = some ⟨rows, row, buf ++ cs, .plain⟩ := by
  induction cs generalizing buf with
  | nil => simp [csvRun]
  | cons c cs ih =>
    obtain ⟨h1, h2, h3⟩ := h c (by simp)
    have hcs : ∀ d ∈ cs, d ≠ dquote ∧ d ≠ ',' ∧ d ≠ '\n' := fun d hd => h d (by simp [hd])
    simp only [csvRun, csvStep, h1, h2, h3, if_false]
    rw [ih hcs]
    simp

theorem quoted_data (s : String) : (quoted s).data = dquote :: (s.data ++ [dquote]) := by
  simp [quoted, dquote]

theorem csvRun_quoted_cell (s : String) (h : NoQuote s) (rows : List (List String))
    (row : List String) (rest : List Char) :
    csvRun ⟨rows, row, [], .plain⟩ ((quoted s).data ++ rest) =
      csvRun ⟨rows, row, s.data, .quoteSeen⟩ rest := by
  rw [csvRun_append, quoted_data]
  have h1 : csvRun ⟨rows, row, [], .plain⟩ (dquote :: (s.data ++ [dquote])) =
      some ⟨rows, row, s.data, .quoteSeen⟩ := by
    simp only [csvRun, csvStep, if_true]
    rw [csvRun_append, csvRun_quotedBody _ h]
    simp [csvRun, csvStep]
  rw [h1]

theorem csvRun_plain_cell (s : String) (h : PlainText s) (rows : List (List String))
    (row : List String) (rest : List Char) :
    csvRun ⟨rows, row, [], .plain⟩ (s.data ++ rest) =
      csvRun ⟨rows, row, s.data, .plain⟩ rest := by
  rw [csvRun_append, csvRun_plain _ h]
  simp

theorem csvRun_comma_quoteSeen (rows : List (List String)) (row : List String)
    (buf rest : List Char) :
    csvRun ⟨rows, row, buf, .quoteSeen⟩ (',' :: rest) =
      csvRun ⟨rows, row ++ [String.mk buf], [], .plain⟩ rest := by
  have h1 : (',' : Char) ≠ dquote := by decide
  simp [csvRun, csvStep, h1]

theorem csvRun_comma_plain (rows : List (List String)) (row : List String)
    (buf rest : List Char) :
    csvRun ⟨rows, row, buf, .plain⟩ (',' :: rest) =
      csvRun ⟨rows, row ++ [String.mk buf], [], .plain⟩ rest := by
  have h1 : (',' : Char) ≠ dquote := by decide
  simp [csvRun, csvStep, h1]

theorem csvRun_newline (st : CsvState) (h : Closable st) (rest : List Char) :
    csvRun st ('\n' :: rest) = csvRun ⟨pendingRows st, [], [], .plain⟩ rest := by
  have h1 : ('\n' : Char) ≠ dquote := by decide
  have h2 : ('\n' : Char) ≠ ',' := by decide
  obtain ⟨rows, row, buf, mode⟩ := st
  rcases h with h | ⟨h, _⟩
  · simp only at h
    subst h
    simp [csvRun, csvStep, h1, h2, pendingRows]
  · simp only at h
    subst h
    simp [csvRun, csvStep, h1, h2, pendingRows]

theorem csvFinish_closable (st : CsvState) (h : Closable st) :
    csvFinish st = some (pendingRows st) := by
  obtain ⟨rows, row, buf, mode⟩ := st
  rcases h with h | ⟨h, hrow⟩
  · simp only at h
    subst h
    simp [csvFinish, pendingRows]
  · simp only at h hrow
    subst h
    simp [csvFinish, pendingRows, hrow]

theorem csvRun_row (env : Env) (item : Record) (h : CleanRecord env item)
    (rows : List (List String)) (rest : List Char) :
    csvRun ⟨rows, [], [], .plain⟩ ((",".intercalate (csvCells env item)).data ++ rest) =
      csvRun ⟨rows, [item.product, item.vendor, item.inspector, item.batchId,
        env.numToString item.average, item.managerStatus],
        (env.localeString item.timestamp).data, .quoteSeen⟩ rest := by
  obtain ⟨h1, h2, h3, h4, h5, h6, h7⟩ := h
  have hc : (",".data : List Char) = [','] := rfl
  simp only [csvCells, intercalate_cons_data, List.flatMap_cons, List.flatMap_nil, hc,
    List.append_assoc, List.cons_append, List.nil_append, List.append_nil]
  rw [csvRun_quoted_cell _ h1, csvRun_comma_quoteSeen,
    csvRun_quoted_cell _ h2, csvRun_comma_quoteSeen,
    csvRun_quoted_cell _ h3, csvRun_comma_quoteSeen,
    csvRun_quoted_cell _ h4, csvRun_comma_quoteSeen,
    csvRun_plain_cell _ h5, csvRun_comma_plain,
    csvRun_quoted_cell _ h6, csvRun_comma_quoteSeen,
    csvRun_quoted_cell _ h7]
  rfl

theorem csvRun_rows (env : Env) (data : List Record) (h : ∀ r ∈ data, CleanRecord env r)
    (st : CsvState) (hst : Closable st) :
    ∃ st2, csvRun st
        (data.flatMap (fun item => "\n".data ++ (",".intercalate (csvCells env item)).data))
        = some st2 ∧ Closable st2 ∧
      pendingRows st2 = pendingRows st ++ data.map (csvValues env) := by
  induction data generalizing st with
  | nil => exact ⟨st, by simp [csvRun], hst, by simp⟩
  | cons item items ih =>
    have hitem := h item (by simp)
    have hitems : ∀ r ∈ items, CleanRecord env r := fun r hr => h r (by simp [hr])
    have hn : ("\n".data : List Char) = ['\n'] := rfl
    simp only [List.flatMap_cons, hn, List.cons_append, List.nil_append, List.append_assoc]
    rw [csvRun_newline st hst, csvRun_row env item hitem]
    obtain ⟨st2, hrun, hcl, hpend⟩ := ih hitems
      ⟨pendingRows st, [item.product, item.vendor, item.inspector, item.batchId,
        env.numToString item.average, item.managerStatus],
        (env.localeString item.timestamp).data, .quoteSeen⟩ (Or.inl rfl)
    refine ⟨st2, hrun, hcl, ?_⟩
    rw [hpend]
    simp [pendingRows, csvValues]

theorem csvRun_header :
    csvRun ⟨[], [], [], .plain⟩ (",".intercalate csvHeaders).data =
      some ⟨[], ["Product", "Vendor", "Inspector", "Batch ID", "Average Score", "Status"],
        "Timestamp".data, .plain⟩ := by
  decide

theorem quoted_eq_rfcQuote (s : String) (h : NoQuote s) : quoted s = rfcQuote s := by
  have hmap : ∀ cs : List Char, dquote ∉ cs →
      cs.flatMap (fun c => if c = dquote then [dquote, dquote] else [c]) = cs := by
    intro cs
    induction cs with
    | nil => intro _; rfl
    | cons c cs ih =>
      intro hc
      have h1 : c ≠ dquote := fun e => hc (by simp [e])
      have h2 : dquote ∉ cs := fun e => hc (by simp [e])
      simp [List.flatMap_cons, h1, ih h2]
  apply String.ext
  rw [quoted_data]
  simp [rfcQuote, hmap s.data h]

/-- Counterexample to C9: for a record whose vendor is `Fresh "Best" Tailors` the export
carries the vendor with its quotes as they are, not doubled, and an RFC 4180 reader
rejects the produced text, so the vendor is not recovered. -/
theorem convertToCSV_quote_not_doubled :
    quoteRecord.vendor = "Fresh \"Best\" Tailors" ∧
    (csvCells demoEnv quoteRecord)[1]? = some "\"Fresh \"Best\" Tailors\"" ∧
    (csvCells demoEnv quoteRecord)[1]? ≠ some (rfcQuote quoteRecord.vendor) ∧
    rfcQuote quoteRecord.vendor = "\"Fresh \"\"Best\"\" Tailors\"" ∧
    convertToCSV demoEnv [quoteRecord] =
      "Product,Vendor,Inspector,Batch ID,Average Score,Status,Timestamp\n" ++
      "\"Shirt - Classic Cotton\",\"Fresh \"Best\" Tailors\",\"John Smith\"," ++
      "\"BATCH-2023-001\",8.17,\"Pending\",\"1/1/2024, 10:00:00 AM\"" ∧
    rfcParse (convertToCSV demoEnv [quoteRecord]) = none := by
  refine ⟨rfl, by decide, by decide, by decide, ?_, by decide⟩
  rfl

/-- C9 (amended): for records whose string fields and rendered dates contain no double
quote (and whose rendered average can stand unquoted), the cells `convertToCSV` writes
are the RFC 4180 quoted forms of the fields, and reading the produced text with RFC 4180
quoting returns the header cells followed by the original field strings of every record,
in order. -/
theorem convertToCSV_roundtrip_without_quotes (env : Env) (data : List Record)
    (h : ∀ r ∈ data, CleanRecord env r) :
    (∀ r ∈ data, csvCells env r =
      [rfcQuote r.product, rfcQuote r.vendor, rfcQuote r.inspector, rfcQuote r.batchId,
       env.numToString r.average, rfcQuote r.managerStatus,
       rfcQuote (env.localeString r.timestamp)]) ∧
    rfcParse (convertToCSV env data) = some (csvHeaders :: data.map (csvValues env)) := by
  constructor
  · intro r hr
    obtain ⟨h1, h2, h3, h4, _, h6, h7⟩ := h r hr
    simp only [csvCells, quoted_eq_rfcQuote _ h1, quoted_eq_rfcQuote _ h2,
      quoted_eq_rfcQuote _ h3, quoted_eq_rfcQuote _ h4, quoted_eq_rfcQuote _ h6,
      quoted_eq_rfcQuote _ h7]
  · obtain ⟨st2, hrun, hcl, hpend⟩ := csvRun_rows env data h
      ⟨[], ["Product", "Vendor", "Inspector", "Batch ID", "Average Score", "Status"],
        "Timestamp".data, .plain⟩ (Or.inr ⟨rfl, by simp⟩)
    unfold rfcParse
    rw [convertToCSV_eq, intercalate_cons_data, List.flatMap_map, csvRun_append,
      csvRun_header]
    simp only
    rw [hrun]
    simp only
    rw [csvFinish_closable st2 hcl, hpend]
    rfl

/-- Witness of C9 (amended): a stored record without any double quote. -/
theorem convertToCSV_roundtrip_without_quotes_witness :
    (∀ r ∈ [demoRecord "ins_a" "Pending"], csvCells demoEnv r =
      [rfcQuote r.product, rfcQuote r.vendor, rfcQuote r.inspector, rfcQuote r.batchId,
       demoEnv.numToString r.average, rfcQuote r.managerStatus,
       rfcQuote (demoEnv.localeString r.timestamp)]) ∧
    rfcParse (convertToCSV demoEnv [demoRecord "ins_a" "Pending"]) =
      some (csvHeaders :: [demoRecord "ins_a" "Pending"].map (csvValues demoEnv)) :=
  convertToCSV_roundtrip_without_quotes demoEnv [demoRecord "ins_a" "Pending"] (by
    intro r hr
    rw [List.mem_singleton] at hr
    subst hr
    simp only [CleanRecord, NoQuote, PlainText]
    decide)

/-! ## Storage.createInspectionData: status, timestamp and range of the average -/

theorem createInspectionData_managerStatus_eq (env : Env) (w : World)
    (input : InspectionInput) :
    (createInspectionData env w input).1.managerStatus = "Pending" := by
  unfold createInspectionData
  split <;> rfl

theorem createInspectionData_timestamp_eq (env : Env) (w : World) (input : InspectionInput) :
    (createInspectionData env w input).1.timestamp =
      match input.timestamp with
      | some t => if t = 0 then env.now else t
      | none => env.now := by
  unfold createInspectionData
  split <;> rfl

theorem createInspectionData_storage (env : Env) (w : World) (input : InspectionInput) :
    (createInspectionData env w input).2.storage = w.storage := by
  by_cases h : truthy input.batchId = true <;> simp [createInspectionData, h]

/-- C14: every record returned by `createInspectionData` has `managerStatus` "Pending",
whatever the input, the environment and the state. -/
theorem createInspectionData_pending (env : Env) (w : World) (input : InspectionInput) :
    (createInspectionData env w input).1.managerStatus = "Pending" :=
  createInspectionData_managerStatus_eq env w input

/-- C15 (failing input): with the supplied timestamp 0 the record does not carry 0 but
the current time, because `timestamp || Date.now()` takes 0 for a missing value; every
other supplied timestamp is kept, and a missing one is replaced by the current time. -/
theorem createInspectionData_timestamp_zero :
    (createInspectionData demoEnv emptyWorld
        { (inputWith exampleScores) with timestamp := some 0 }).1.timestamp = demoEnv.now ∧
    demoEnv.now ≠ 0 ∧
    (∀ (env : Env) (w : World) (input : InspectionInput) (t : Int),
      (createInspectionData env w { input with timestamp := some t }).1.timestamp =
        if t = 0 then env.now else t) ∧
    (∀ (env : Env) (w : World) (input : InspectionInput),
      (createInspectionData env w { input with timestamp := none }).1.timestamp = env.now) := by
  refine ⟨?_, by decide, ?_, ?_⟩
  · rw [createInspectionData_timestamp_eq]
    rfl
  · intro env w input t
    rw [createInspectionData_timestamp_eq]
  · intro env w input
    rw [createInspectionData_timestamp_eq]

/-- C16: for every finite score `v`, `getRatingDescription v` is "Excellent" when
`v ≥ 9`, "Very Good" when `8 ≤ v < 9`, "Good" when `7 ≤ v < 8`, "Average" when
`6 ≤ v < 7` and "Needs Improvement" when `v < 6`. -/
theorem getRatingDescription_bands (v : ℚ) :
    (9 ≤ v → getRatingDescription (.fin v) = "Excellent") ∧
    (8 ≤ v ∧ v < 9 → getRatingDescription (.fin v) = "Very Good") ∧
    (7 ≤ v ∧ v < 8 → getRatingDescription (.fin v) = "Good") ∧
    (6 ≤ v ∧ v < 7 → getRatingDescription (.fin v) = "Average") ∧
    (v < 6 → getRatingDescription (.fin v) = "Needs Improvement") := by
  refine ⟨?_, ?_, ?_, ?_, ?_⟩
  · intro h
    simp [getRatingDescription, JSNum.ge, h]
  · rintro ⟨h1, h2⟩
    simp [getRatingDescription, JSNum.ge, h1, not_le.mpr h2]
  · rintro ⟨h1, h2⟩
    have h9 : ¬ 9 ≤ v := by intro hc; linarith
    simp [getRatingDescription, JSNum.ge, h1, not_le.mpr h2, h9]
  · rintro ⟨h1, h2⟩
    have h9 : ¬ 9 ≤ v := by intro hc; linarith
    have h8 : ¬ 8 ≤ v := by intro hc; linarith
    simp [getRatingDescription, JSNum.ge, h1, not_le.mpr h2, h9, h8]
  · intro h
    have h9 : ¬ 9 ≤ v := by intro hc; linarith
    have h8 : ¬ 8 ≤ v := by intro hc; linarith
    have h7 : ¬ 7 ≤ v := by intro hc; linarith
    simp [getRatingDescription, JSNum.ge, not_le.mpr h, h9, h8, h7]

/-- Witness of C16: the five bands at the scores 9.5, 8.5, 7.5, 6.5 and 3. -/
theorem getRatingDescription_bands_witness :
    getRatingDescription (.fin (19 / 2)) = "Excellent" ∧
    getRatingDescription (.fin (17 / 2)) = "Very Good" ∧
    getRatingDescription (.fin (15 / 2)) = "Good" ∧
    getRatingDescription (.fin (13 / 2)) = "Average" ∧
    getRatingDescription (.fin 3) = "Needs Improvement" :=
  ⟨(getRatingDescription_bands (19 / 2)).1 (by norm_num),
   (getRatingDescription_bands (17 / 2)).2.1 (by norm_num),
   (getRatingDescription_bands (15 / 2)).2.2.1 (by norm_num),
   (getRatingDescription_bands (13 / 2)).2.2.2.1 (by norm_num),
   (getRatingDescription_bands 3).2.2.2.2 (by norm_num)⟩

/-- C17: for every input whose score object is non-empty with all values in `[0,10]`
(and, as every JavaScript array, with fewer than `2^32` entries), the count dividing the
sum is non-zero, `calculateAverageScore` returns a finite value in `[0,10]`, and the
two-decimal average stored by `createInspectionData` is a finite value in `[0,10]` as
well. -/
theorem average_in_range (env : Env) (w : World) (input : InspectionInput)
    (hne : input.scores ≠ []) (hrange : ∀ p ∈ input.scores, 0 ≤ p.2 ∧ p.2 ≤ 10)
    (hlen : input.scores.length < 2 ^ 32) :
    (input.scores.map Prod.snd).length ≠ 0 ∧
    (∃ m : ℚ, calculateAverageScore input.scores = .fin m ∧ 0 ≤ m ∧ m ≤ 10) ∧
    (∃ r : ℚ, (createInspectionData env w input).1.average = .fin r ∧ 0 ≤ r ∧ r ≤ 10) := by
  obtain ⟨a, ha, h0, h10⟩ := calculateAverageScore_bounds input.scores hne hrange hlen
  obtain ⟨hn0, hn1⟩ := roundHalfUp_bounds a h0 h10
  obtain ⟨r, hr, hr0, hr10, _, _⟩ := roundToDouble_hundredths _ hn0 hn1
  refine ⟨by simpa using hne, ⟨a, ha, h0, h10⟩, ⟨r, ?_, hr0, hr10⟩⟩
  rw [(createInspectionData_bands env w input a ha h0 h10).1, hr]

/-- Witness of C17: the specification's example scores. -/
theorem average_in_range_witness :
    ((inputWith exampleScores).scores.map Prod.snd).length ≠ 0 ∧
    (∃ m : ℚ, calculateAverageScore (inputWith exampleScores).scores = .fin m ∧
      0 ≤ m ∧ m ≤ 10) ∧
    (∃ r : ℚ, (createInspectionData demoEnv emptyWorld (inputWith exampleScores)).1.average
      = .fin r ∧ 0 ≤ r ∧ r ≤ 10) :=
  average_in_range demoEnv emptyWorld (inputWith exampleScores)
    (by simp [inputWith, exampleScores]) exampleScores_valid.2
    (by simp [inputWith, exampleScores])

/-! ## ModalManager.handleFormSubmission: accepted submissions -/

theorem truthy_of_not_emptyOrMissing (v : Option String) (h : ¬ EmptyOrMissing v) :
    truthy v = true := by
  cases hv : truthy v with
  | true => rfl
  | false => exact absurd ((truthy_eq_false_iff v).mp hv) h

theorem handleFormSubmission_eq (env : Env) (form : FormValues) (w : World)
    (hp : truthy form.product = true) (hv : truthy form.vendor = true)
    (hi : truthy form.inspector = true) :
    handleFormSubmission env form w =
      { (saveData env
          ((readData env (createInspectionData env w (formInput form w)).2).1 ++
            [(createInspectionData env w (formInput form w)).1])
          (readData env (createInspectionData env w (formInput form w)).2).2).2
        with currentImgData := none } := by
  unfold handleFormSubmission
  rw [if_neg (by simp [hp, hv, hi])]
  rfl

/-- C13: for a submission whose product, vendor and inspector are all non-empty, with the
write accepted, `handleFormSubmission` persists the set that `readData` returned with the
new record appended as its last element: the set grows by exactly one, every record read
keeps its position and content, and on a state with a persisted set that set is the one
extended. -/
theorem handleFormSubmission_appends (env : Env) (form : FormValues) (w : World)
    (hp : ¬ EmptyOrMissing form.product) (hv : ¬ EmptyOrMissing form.vendor)
    (hi : ¬ EmptyOrMissing form.inspector) (hacc : ∀ d, env.accepts d = true) :
    ∃ (newItem : Record) (w1 : World) (read out : List Record),
      createInspectionData env w (formInput form w) = (newItem, w1) ∧
      (readData env w1).1 = read ∧
      (handleFormSubmission env form w).storage = some out ∧
      out = read ++ [newItem] ∧
      out.length = read.length + 1 ∧
      (∀ (j : Nat) (r : Record), read[j]? = some r → out[j]? = some r) ∧
      out.getLast? = some newItem ∧
      (∀ data, w.storage = some data → read = data) := by
  refine ⟨(createInspectionData env w (formInput form w)).1,
    (createInspectionData env w (formInput form w)).2,
    (readData env (createInspectionData env w (formInput form w)).2).1,
    (readData env (createInspectionData env w (formInput form w)).2).1 ++
      [(createInspectionData env w (formInput form w)).1], rfl, rfl, ?_, rfl, by simp, ?_,
    by simp, ?_⟩
  · rw [handleFormSubmission_eq env form w (truthy_of_not_emptyOrMissing _ hp)
      (truthy_of_not_emptyOrMissing _ hv) (truthy_of_not_emptyOrMissing _ hi),
      saveData_of_accepts _ _ _ (hacc _)]
  · intro j r hr
    have hj : j < (readData env (createInspectionData env w (formInput form w)).2).1.length := by
      rcases Nat.lt_or_ge j
        (readData env (createInspectionData env w (formInput form w)).2).1.length with hl | hl
      · exact hl
      · rw [List.getElem?_eq_none hl] at hr
        cases hr
    rw [List.getElem?_append_left hj]
    exact hr
  · intro data hdata
    have hst : (createInspectionData env w (formInput form w)).2.storage = some data := by
      rw [createInspectionData_storage]
      exact hdata
    rw [readData_of_some env _ data hst]

/-- Witness of C13: a complete form submitted on a state with three stored records. -/
theorem handleFormSubmission_appends_witness :
    ∃ (newItem : Record) (w1 : World) (read out : List Record),
      createInspectionData demoEnv demoWorld (formInput formComplete demoWorld)
        = (newItem, w1) ∧
      (readData demoEnv w1).1 = read ∧
      (handleFormSubmission demoEnv formComplete demoWorld).storage = some out ∧
      out = read ++ [newItem] ∧
      out.length = read.length + 1 ∧
      (∀ (j : Nat) (r : Record), read[j]? = some r → out[j]? = some r) ∧
      out.getLast? = some newItem ∧
      (∀ data, demoWorld.storage = some data → read = data) :=
  handleFormSubmission_appends demoEnv formComplete demoWorld
    (by simp [EmptyOrMissing, formComplete]) (by simp [EmptyOrMissing, formComplete])
    (by simp [EmptyOrMissing, formComplete]) (fun _ => rfl)

/-! ## ReportManager.createReportContent -/

theorem embeds_refl (p : String) : Embeds p p :=
  ⟨"", "", by simp⟩

theorem embeds_append_left (a b p : String) (h : Embeds a p) : Embeds (a ++ b) p := by
  obtain ⟨pre, post, rfl⟩ := h
  exact ⟨pre, post ++ b, by simp [String.append_assoc]⟩

theorem embeds_append_right (a b p : String) (h : Embeds b p) : Embeds (a ++ b) p := by
  obtain ⟨pre, post, rfl⟩ := h
  exact ⟨a ++ pre, post, by simp [String.append_assoc]⟩

theorem embeds_last (a p : String) : Embeds (a ++ p) p :=
  embeds_append_right a p p (embeds_refl p)

theorem reportSummaryBlock_embeds (env : Env) (item : Record) (time : String) :
    Embeds (reportSummaryBlock env item time) item.product ∧
    Embeds (reportSummaryBlock env item time) item.vendor ∧
    Embeds (reportSummaryBlock env item time) item.inspector ∧
    Embeds (reportSummaryBlock env item time) item.batchId := by
  unfold reportSummaryBlock
  refine ⟨?_, ?_, ?_, ?_⟩ <;>
    repeat (first | exact embeds_last _ _ | apply embeds_append_left)

theorem reportNotes_embeds (item : Record) :
    Embeds (reportNotes item) (notesOrFallback item.notes) := by
  unfold reportNotes
  repeat (first | exact embeds_last _ _ | apply embeds_append_left)

theorem createReportContent_embeds (env : Env) (item : Record) :
    Embeds (createReportContent env item) item.product ∧
    Embeds (createReportContent env item) item.vendor ∧
    Embeds (createReportContent env item) item.inspector ∧
    Embeds (createReportContent env item) item.batchId ∧
    Embeds (createReportContent env item) (notesOrFallback item.notes) := by
  obtain ⟨h1, h2, h3, h4⟩ :=
    reportSummaryBlock_embeds env item (env.localeString item.timestamp)
  have h5 := reportNotes_embeds item
  unfold createReportContent
  refine ⟨?_, ?_, ?_, ?_, ?_⟩
  · exact embeds_append_left _ _ _ (embeds_append_left _ _ _ (embeds_append_left _ _ _
      (embeds_append_right _ _ _ h1)))
  · exact embeds_append_left _ _ _ (embeds_append_left _ _ _ (embeds_append_left _ _ _
      (embeds_append_right _ _ _ h2)))
  · exact embeds_append_left _ _ _ (embeds_append_left _ _ _ (embeds_append_left _ _ _
      (embeds_append_right _ _ _ h3)))
  · exact embeds_append_left _ _ _ (embeds_append_left _ _ _ (embeds_append_left _ _ _
      (embeds_append_right _ _ _ h4)))
  · exact embeds_append_left _ _ _ (embeds_append_right _ _ _ h5)

theorem notesOrFallback_eq (notes : Option String) :
    notesOrFallback notes =
      match notes with
      | none => "No additional notes provided."
      | some s => if s = "" then "No additional notes provided." else s := by
  cases notes with
  | none => rfl
  | some s =>
    by_cases h : s = ""
    · subst h
      rfl
    · simp [notesOrFallback, truthy, h]

/-- C11 (failing input): for a record whose product is `<script>alert(1)</script>` the
report contains that markup as it is, while `TableManager.escapeHtml` turns the same text
into `&lt;script&gt;alert(1)&lt;/script&gt;`; in general the report carries product,
vendor, inspector, batchId and the notes exactly as stored. -/
theorem createReportContent_embeds_raw_markup :
    markupRecord.product = "<script>alert(1)</script>" ∧
    Embeds (createReportContent demoEnv markupRecord) "<script>alert(1)</script>" ∧
    escapeHtml (some "<script>alert(1)</script>") = "&lt;script&gt;alert(1)&lt;/script&gt;" ∧
    (∀ (env : Env) (item : Record),
      Embeds (createReportContent env item) item.product ∧
      Embeds (createReportContent env item) item.vendor ∧
      Embeds (createReportContent env item) item.inspector ∧
      Embeds (createReportContent env item) item.batchId ∧
      Embeds (createReportContent env item) (notesOrFallback item.notes)) := by
  refine ⟨rfl, (createReportContent_embeds demoEnv markupRecord).1, by decide, ?_⟩
  intro env item
  exact createReportContent_embeds env item

/-- C12: the report differs with the notes only in its notes paragraph: around fixed
text that does not depend on the notes, the paragraph inside the notes block is
"No additional notes provided." when the notes are absent or empty, and the notes
themselves otherwise. -/
theorem createReportContent_notes_paragraph (env : Env) (item : Record) :
    ∃ pre post : String, ∀ notes : Option String,
      createReportContent env { item with notes := notes } =
        pre ++
        "                <div class=\"section\">\n" ++
        "                    <h3>Inspection Notes</h3>\n" ++
        "                    <div class=\"notes\">\n" ++
        "                        <p>" ++
        (match notes with
          | none => "No additional notes provided."
          | some s => if s = "" then "No additional notes provided." else s) ++
        "</p>\n" ++
        "                    </div>\n" ++
        post := by
  refine ⟨reportHead item ++ reportSummaryBlock env item (env.localeString item.timestamp) ++
    reportScores env item,
    "                </div>\n" ++ "                \n" ++ reportFooter env item, fun notes => ?_⟩
  have h1 : reportHead { item with notes := notes } = reportHead item := rfl
  have h2 : reportSummaryBlock env { item with notes := notes }
      (env.localeString item.timestamp) =
      reportSummaryBlock env item (env.localeString item.timestamp) := rfl
  have h3 : reportScores env { item with notes := notes } = reportScores env item := rfl
  have h4 : reportFooter env { item with notes := notes } = reportFooter env item := rfl
  have h5 : createReportContent env { item with notes := notes } =
      reportHead { item with notes := notes } ++
      reportSummaryBlock env { item with notes := notes } (env.localeString item.timestamp) ++
      reportScores env { item with notes := notes } ++
      reportNotes { item with notes := notes } ++
      reportFooter env { item with notes := notes } := rfl
  rw [h5, h1, h2, h3, h4, ← notesOrFallback_eq]
  unfold reportNotes
  simp only [String.append_assoc]

end QMS
